import Mathlib

/-!
Verification development for the FlexiMart ETL pipeline
(src/part1-database-etl/etl_pipeline.py).

The pipeline's field normalizers, record cleaning, integrity filtering,
transactional load and quality report are embedded as executable Lean
definitions, and the behavioural properties of the pipeline are proved
about them.

Modelling conventions:
* Python `None` / pandas `NaN` string cells are `Option String`; after the
  `applymap(normalize_spaces)` pass every cell is a plain `String` (missing
  cells become `""`), exactly as in the source.
* Monetary / numeric values are exact decimal numbers `Dec` (an integer
  mantissa with a power-of-ten denominator).  `pd.to_numeric` is modelled
  for optionally-signed plain decimal literals; the float round-trip
  through `Decimal(str(x))` is treated as exact, which it is for all
  decimal inputs of at most 15 significant digits.
* `pandas.to_datetime` (a dateutil-based parser) is modelled for the input
  shapes the pipeline can reach: numeric two- and three-part strings
  separated by `/` or `-`.  Other shapes are modelled as parse failure.
* The MySQL connection is modelled as a state machine over the four target
  tables.  `TRUNCATE`/insert/commit/rollback follow the source: the
  truncation is committed by `truncate_tables` itself (line 263), inserts
  become durable only at the final commit, and an injected failure rolls
  the working state back to the last committed state.
-/

/-! ## Character and string helpers -/

/-- Whitespace characters recognised by Python's `\s` (ASCII range). -/
def pyIsSpace (c : Char) : Bool :=
  c == ' ' || c == '\t' || c == '\n' || c == '\r' || c == Char.ofNat 11 || c == Char.ofNat 12

/-- Model of `normalize_spaces` (etl_pipeline.py lines 57-62): collapse each
whitespace run to a single space and trim the ends; missing input yields `""`. -/
def normalize_spaces (o : Option String) : String :=
  match o with
  | none => ""
  | some s =>
    String.mk (List.intercalate [' '] ((s.toList.splitOnP pyIsSpace).filter (fun w => !w.isEmpty)))

/-- Helper for `pyTitle`: Python `str.title()` capitalises the first character
of every run of alphabetic characters and lowercases the rest (ASCII model). -/
def pyTitleAux : Bool → List Char → List Char
  | _, [] => []
  | prevAlpha, c :: cs =>
    if c.isAlpha then (if prevAlpha then c.toLower else c.toUpper) :: pyTitleAux true cs
    else c :: pyTitleAux false cs

/-- Model of Python `str.title()` (ASCII model). -/
def pyTitle (s : String) : String := String.mk (pyTitleAux false s.toList)

/-- Model of Python `str.lower()` (ASCII model). -/
def pyLower (s : String) : String := String.mk (s.toList.map Char.toLower)

/-- Model of `normalize_city` (lines 64-66). -/
def normalize_city (o : Option String) : String :=
  let s := normalize_spaces o
  if s = "" then "" else pyTitle s

/-- Model of `normalize_category` (lines 68-75): trim, lowercase, map against
the fixed canonical table, falling back to title-case of the trimmed input. -/
def normalize_category (o : Option String) : String :=
  let s := pyLower (normalize_spaces o)
  if s = "electronics" then "Electronics"
  else if s = "fashion" then "Fashion"
  else if s = "groceries" then "Groceries"
  else if s = "" then "" else pyTitle s

/-! ## Phone normalisation -/

/-- The prefix-stripping chain of `normalize_phone` (lines 90-96): strip a
12-digit "91" country prefix, an 11-digit "0" trunk prefix, or keep the last
10 digits when more than 10 remain. -/
def phoneStrip (ds : List Char) : List Char :=
  if ds.length = 12 ∧ ds.take 2 = ['9', '1'] then ds.drop (ds.length - 10)
  else if ds.length = 11 ∧ ds.take 1 = ['0'] then ds.drop (ds.length - 10)
  else if ds.length > 10 then ds.drop (ds.length - 10)
  else ds

/-- Digit extraction (`re.sub(r"\D+", "", ...)`) followed by the stripping chain. -/
def strippedDigits (s : String) : List Char := phoneStrip (s.toList.filter Char.isDigit)

/-- Model of `normalize_phone` (lines 77-99). -/
def normalize_phone (o : Option String) : Option String :=
  match o with
  | none => none
  | some s =>
    if s.toList.all pyIsSpace then none
    else
      let ds := strippedDigits s
      if ds.length ≠ 10 then none
      else some ("+91-" ++ String.mk ds)

/-! ## Exact decimal numbers -/

/-- An exact decimal number `man / 10 ^ exp` (unnormalised).  Every numeric
value the pipeline manipulates (parsed prices, medians, rounded amounts,
subtotals) is such a number. -/
structure Dec where
  man : ℤ
  exp : ℕ
deriving DecidableEq, Repr

/-- Numeric value of a `Dec` as a rational. -/
def Dec.toRat (d : Dec) : ℚ := d.man / 10 ^ d.exp

/-- Numeric comparison of two `Dec`s (by cross multiplication). -/
def Dec.le (a b : Dec) : Prop := a.man * 10 ^ b.exp ≤ b.man * 10 ^ a.exp

instance : DecidableRel Dec.le := fun a b => by
  unfold Dec.le; infer_instance

/-- Exact product of two decimals. -/
def Dec.mul (a b : Dec) : Dec := ⟨a.man * b.man, a.exp + b.exp⟩

/-- Exact sum of two decimals. -/
def Dec.add (a b : Dec) : Dec := ⟨a.man * 10 ^ b.exp + b.man * 10 ^ a.exp, a.exp + b.exp⟩

/-- Exact half of a decimal (used for the even-length median). -/
def Dec.half (a : Dec) : Dec := ⟨5 * a.man, a.exp + 1⟩

/-- Integer embedding. -/
def Dec.ofInt (n : ℤ) : Dec := ⟨n, 0⟩

/-- Digits-to-number accumulator. -/
def natOfDigits (l : List Char) : ℕ := l.foldl (fun n c => 10 * n + (c.toNat - '0'.toNat)) 0

/-- Model of `pd.to_numeric(..., errors="coerce")` on a single cell,
restricted to optionally-signed plain decimal literals (the only numeric
shapes in the raw data); anything else coerces to `NaN`, i.e. `none`. -/
def parseDecimal (s : String) : Option Dec :=
  let l := s.toList
  let neg := match l with
    | '-' :: _ => true
    | _ => false
  let body := match l with
    | '-' :: t => t
    | '+' :: t => t
    | t => t
  match body.splitOn '.' with
  | [ip] =>
    if ip ≠ [] ∧ ip.all Char.isDigit then
      some ⟨(if neg then -(natOfDigits ip : ℤ) else (natOfDigits ip : ℤ)), 0⟩
    else none
  | [ip, fp] =>
    if (ip ≠ [] ∨ fp ≠ []) ∧ ip.all Char.isDigit ∧ fp.all Char.isDigit then
      let n : ℤ := (natOfDigits ip * 10 ^ fp.length + natOfDigits fp : ℕ)
      some ⟨(if neg then -n else n), fp.length⟩
    else none
  | _ => none

/-- Round a nonnegative-denominator integer fraction `n / k` to the nearest
integer, ties away from zero. -/
def roundHalfAway (n k : ℤ) : ℤ :=
  if 0 ≤ n then (2 * n + k) / (2 * k) else -((2 * (-n) + k) / (2 * k))

/-- Model of `to_decimal_2` (lines 176-178): quantize to two fractional
digits with `ROUND_HALF_UP` (ties away from zero). -/
def to_decimal_2 (d : Dec) : Dec :=
  if d.exp ≤ 2 then ⟨d.man * 10 ^ (2 - d.exp), 2⟩
  else ⟨roundHalfAway d.man (10 ^ (d.exp - 2)), 2⟩

/-- Model of `.astype(int)` on a numeric value: truncation toward zero. -/
def truncInt (d : Dec) : ℤ :=
  if 0 ≤ d.man then d.man / (10 ^ d.exp : ℤ) else -((-d.man) / (10 ^ d.exp : ℤ))

/-- Model of the pandas `Series.median()` statistic: sort the values and take
the middle element, or the mean of the two middle elements for even length;
an empty series has median `NaN` (`none`). -/
def median (l : List Dec) : Option Dec :=
  let s := List.insertionSort Dec.le l
  if s.length = 0 then none
  else if s.length % 2 = 1 then s.get? (s.length / 2)
  else match s.get? (s.length / 2 - 1), s.get? (s.length / 2) with
    | some a, some b => some (Dec.half (Dec.add a b))
    | _, _ => none

/-! ## Flexible date parsing -/

/-- A calendar date. -/
structure DateYMD where
  year : ℕ
  month : ℕ
  day : ℕ
deriving DecidableEq, Repr

def isLeapYear (y : ℕ) : Bool := y % 4 == 0 && (y % 100 != 0 || y % 400 == 0)

def daysInMonth (y m : ℕ) : ℕ :=
  if m = 2 then (if isLeapYear y then 29 else 28)
  else if m = 4 ∨ m = 6 ∨ m = 9 ∨ m = 11 then 30
  else 31

def validYmd (y m d : ℕ) : Bool :=
  decide (1 ≤ y ∧ 1 ≤ m ∧ m ≤ 12 ∧ 1 ≤ d ∧ d ≤ daysInMonth y m)

/-- Parse an unsigned decimal numeral (model of `int(...)` on the separator
parts, which carry no sign or spaces after `normalize_spaces`). -/
def parseNatStrict (l : List Char) : Option ℕ :=
  if l ≠ [] ∧ l.all Char.isDigit then some (natOfDigits l) else none

/-- Model of `pd.to_datetime(s, format="%Y-%m-%d")`: a strict
year-month-day parse with `-` separators and calendar validation. -/
def to_datetime_ymd (l : List Char) : Option DateYMD :=
  match l.splitOn '-' with
  | [y, m, d] => do
    let yi ← parseNatStrict y
    let mi ← parseNatStrict m
    let di ← parseNatStrict d
    if validYmd yi mi di then some ⟨yi, mi, di⟩ else none
  | _ => none

/-- Model of dateutil's two-digit-year widening (50-year window). -/
def adjustYear (y : ℕ) : ℕ :=
  if y < 100 then (if 2000 + y ≤ 2075 then 2000 + y else 1900 + y) else y

/-- Model of dateutil's month/day resolution for two remaining numeric parts
under a `dayfirst` hint: prefer the hinted order, swapping when the hinted
month slot cannot be a month. -/
def resolveMD (x y : ℕ) (dayfirst : Bool) : Option (ℕ × ℕ) :=
  if dayfirst then
    if 1 ≤ y ∧ y ≤ 12 then some (y, x)
    else if 1 ≤ x ∧ x ≤ 12 then some (x, y)
    else none
  else
    if 1 ≤ x ∧ x ≤ 12 then some (x, y)
    else if 1 ≤ y ∧ y ≤ 12 then some (y, x)
    else none

def mkValidDate (y m d : ℕ) : Option DateYMD :=
  if validYmd y m d then some ⟨y, m, d⟩ else none

/-- Model of the generic `pd.to_datetime(s, dayfirst:=...)` (dateutil)
parser, restricted to the shapes reachable in this pipeline: numeric two- and
three-part strings separated by `/` or `-`.  Unreachable shapes are modelled
as parse failure. -/
def pdDatetime (dayfirst : Bool) (l : List Char) : Option DateYMD :=
  let delim := if l.contains '/' then '/' else '-'
  match l.splitOn delim with
  | [p, q] => do
    let pn ← parseNatStrict p
    let qn ← parseNatStrict q
    if p.length = 4 then (if 1 ≤ qn ∧ qn ≤ 12 then some ⟨pn, qn, 1⟩ else none)
    else if q.length = 4 then (if 1 ≤ pn ∧ pn ≤ 12 then some ⟨qn, pn, 1⟩ else none)
    else none
  | [a, b, c] => do
    let ai ← parseNatStrict a
    let bi ← parseNatStrict b
    let ci ← parseNatStrict c
    if a.length = 4 then do
      let md ← resolveMD bi ci dayfirst
      mkValidDate ai md.1 md.2
    else do
      let md ← resolveMD ai bi dayfirst
      mkValidDate (adjustYear ci) md.1 md.2
  | _ => none

/-- The `dayfirst` resolution rule of `parse_flex_date` (lines 159-169):
month-first when the second part exceeds 12, else day-first when the first
part exceeds 12, else the ambiguous default month-first. -/
def chooseDayfirst (ai bi : ℕ) : Bool :=
  if bi > 12 then false
  else if ai > 12 then true
  else false

/-- The fast-path regex `^\d{4}-\d{2}-\d{2}$` (line 115). -/
def isFastYmd (l : List Char) : Bool :=
  match l with
  | [a, b, c, d, s1, e, f, s2, g, h] =>
    a.isDigit && b.isDigit && c.isDigit && d.isDigit && s1 == '-' &&
    e.isDigit && f.isDigit && s2 == '-' && g.isDigit && h.isDigit
  | _ => false

/-- Model of `parse_flex_date` (lines 101-174). -/
def parse_flex_date (o : Option String) : Option DateYMD :=
  match o with
  | none => none
  | some s0 =>
    if s0.toList.all pyIsSpace then none
    else
      let l := (normalize_spaces (some s0)).toList
      if isFastYmd l then to_datetime_ymd l
      else if l.contains '/' || l.contains '-' then
        let delim := if l.contains '/' then '/' else '-'
        match l.splitOn delim with
        | [a, b, _] =>
          if a.length = 4 then
            match to_datetime_ymd l with
            | some d => some d
            | none => pdDatetime false l
          else
            match parseNatStrict a, parseNatStrict b with
            | some ai, some bi => pdDatetime (chooseDayfirst ai bi) l
            | _, _ => pdDatetime false l
        | _ => pdDatetime false l
      else pdDatetime false l

/-! ## Raw and cleaned entity rows -/

/-- A raw customer CSV row (all cells text; missing cells are `none`). -/
structure RawCustomer where
  customer_id : Option String
  first_name : Option String
  last_name : Option String
  email : Option String
  phone : Option String
  city : Option String
  registration_date : Option String
deriving DecidableEq, Repr

/-- A customer row after the `applymap(normalize_spaces)` pass (line 279). -/
structure CustomerStr where
  customer_id : String
  first_name : String
  last_name : String
  email : String
  phone : String
  city : String
  registration_date : String
deriving DecidableEq, Repr

structure RawProduct where
  product_id : Option String
  product_name : Option String
  category : Option String
  price : Option String
  stock_quantity : Option String
deriving DecidableEq, Repr

structure ProductStr where
  product_id : String
  product_name : String
  category : String
  price : String
  stock_quantity : String
deriving DecidableEq, Repr

structure RawSale where
  transaction_id : Option String
  customer_id : Option String
  product_id : Option String
  quantity : Option String
  unit_price : Option String
  transaction_date : Option String
  status : Option String
deriving DecidableEq, Repr

structure SaleStr where
  transaction_id : String
  customer_id : String
  product_id : String
  quantity : String
  unit_price : String
  transaction_date : String
  status : String
deriving DecidableEq, Repr

def custFromRaw (r : RawCustomer) : CustomerStr :=
  ⟨normalize_spaces r.customer_id, normalize_spaces r.first_name, normalize_spaces r.last_name,
   normalize_spaces r.email, normalize_spaces r.phone, normalize_spaces r.city,
   normalize_spaces r.registration_date⟩

def prodFromRaw (r : RawProduct) : ProductStr :=
  ⟨normalize_spaces r.product_id, normalize_spaces r.product_name, normalize_spaces r.category,
   normalize_spaces r.price, normalize_spaces r.stock_quantity⟩

def saleFromRaw (r : RawSale) : SaleStr :=
  ⟨normalize_spaces r.transaction_id, normalize_spaces r.customer_id,
   normalize_spaces r.product_id, normalize_spaces r.quantity, normalize_spaces r.unit_price,
   normalize_spaces r.transaction_date, normalize_spaces r.status⟩

/-! ## Deduplication (`drop_duplicates(subset=[key], keep="first")`) -/

/-- Worker for `dedupBy`: keep a row only when its key has not been seen. -/
def dedupByAux {α β : Type} [DecidableEq β] (key : α → β) (seen : List β) : List α → List α
  | [] => []
  | x :: xs =>
    if key x ∈ seen then dedupByAux key seen xs
    else x :: dedupByAux key (key x :: seen) xs

/-- Model of `DataFrame.drop_duplicates(subset=[key], keep="first")`. -/
def dedupBy {α β : Type} [DecidableEq β] (key : α → β) (l : List α) : List α :=
  dedupByAux key [] l

/-! ## Customer cleaning (lines 306-325) -/

/-- A cleaned customer record ready for loading. -/
structure CustomerClean where
  customer_id : String
  first_name : String
  last_name : String
  email : String
  phone : Option String
  city : String
  registration_date : Option DateYMD
deriving DecidableEq, Repr

def customersStr (rc : List RawCustomer) : List CustomerStr := rc.map custFromRaw

def customersDedup (rc : List RawCustomer) : List CustomerStr :=
  dedupBy (fun c => c.customer_id) (customersStr rc)

/-- Fill a missing email with the deterministic placeholder (lines 312-316). -/
def fillEmail (c : CustomerStr) : CustomerStr :=
  if c.email = "" then
    { c with email := "unknown+" ++ pyLower c.customer_id ++ "@fleximart.local" }
  else c

/-- Per-row customer cleaning (lines 318-325). -/
def cleanCustomer (c : CustomerStr) : CustomerClean :=
  let c := fillEmail c
  { customer_id := c.customer_id
    first_name := normalize_spaces (some c.first_name)
    last_name := normalize_spaces (some c.last_name)
    email := pyLower c.email
    phone := normalize_phone (some c.phone)
    city := normalize_city (some c.city)
    registration_date := parse_flex_date (some c.registration_date) }

def customersClean (rc : List RawCustomer) : List CustomerClean :=
  (customersDedup rc).map cleanCustomer

/-! ## Product cleaning (lines 327-356) -/

/-- A product row after name/category normalisation and price parsing. -/
structure ProductStage where
  product_id : String
  product_name : String
  category : String
  price_num : Option Dec
  stock_quantity : String
deriving DecidableEq, Repr

def productsStr (rp : List RawProduct) : List ProductStr := rp.map prodFromRaw

def productsDedup (rp : List RawProduct) : List ProductStr :=
  dedupBy (fun p => p.product_id) (productsStr rp)

def stageProduct (p : ProductStr) : ProductStage :=
  ⟨p.product_id, normalize_spaces (some p.product_name), normalize_category (some p.category),
   parseDecimal p.price, p.stock_quantity⟩

def productsStage (rp : List RawProduct) : List ProductStage :=
  (productsDedup rp).map stageProduct

/-- The successfully parsed prices of the products in a given
(already-canonicalised) category: the series `groupby("category")["price_num"]`
with `NaN`s skipped. -/
def peerPrices (ps : List ProductStage) (cat : String) : List Dec :=
  (ps.filter (fun p => p.category == cat)).filterMap (fun p => p.price_num)

/-- Model of `impute_price` (lines 341-345): keep a parsed price, otherwise
take the category median (`NaN`, i.e. `none`, when the category has no
parsed peer prices). -/
def impute_price (ps : List ProductStage) (r : ProductStage) : Option Dec :=
  match r.price_num with
  | none => median (peerPrices ps r.category)
  | some v => some v

/-- Products after imputation and the `dropna` on price (lines 347-350). -/
def productsImputed (rp : List RawProduct) : List ProductStage :=
  ((productsStage rp).map
      (fun r => { r with price_num := impute_price (productsStage rp) r })).filter
    (fun r => r.price_num.isSome)

/-- A fully cleaned product record ready for loading. -/
structure ProductClean where
  product_id : String
  product_name : String
  category : String
  price_num : Dec
  stock_num : ℤ
deriving DecidableEq, Repr

/-- Stock conversion (lines 352-356): `to_numeric` then `fillna(0).astype(int)`. -/
def cleanProduct (r : ProductStage) : ProductClean :=
  ⟨r.product_id, r.product_name, r.category, (r.price_num).getD ⟨0, 0⟩,
   truncInt ((parseDecimal r.stock_quantity).getD ⟨0, 0⟩)⟩

def productsClean (rp : List RawProduct) : List ProductClean :=
  (productsImputed rp).map cleanProduct

/-! ## Sales cleaning (lines 358-387) -/

def salesStr (rs : List RawSale) : List SaleStr := rs.map saleFromRaw

def salesS1 (rs : List RawSale) : List SaleStr :=
  dedupBy (fun s => s.transaction_id) (salesStr rs)

def salesS2 (rs : List RawSale) : List SaleStr :=
  (salesS1 rs).filter (fun s => !(s.customer_id == ""))

def salesS3 (rs : List RawSale) : List SaleStr :=
  (salesS2 rs).filter (fun s => !(s.product_id == ""))

/-- Quantity conversion (line 371): `to_numeric(...).fillna(0).astype(int)`. -/
def qtyOf (s : SaleStr) : ℤ := truncInt ((parseDecimal s.quantity).getD ⟨0, 0⟩)

def salesS4 (rs : List RawSale) : List SaleStr :=
  (salesS3 rs).filter (fun s => decide (0 < qtyOf s))

def salesS5 (rs : List RawSale) : List SaleStr :=
  (salesS4 rs).filter (fun s => (parseDecimal s.unit_price).isSome)

def salesS6 (rs : List RawSale) : List SaleStr :=
  (salesS5 rs).filter (fun s => (parse_flex_date (some s.transaction_date)).isSome)

/-- The integrity filter (lines 382-387): keep only sales whose natural keys
survive in the cleaned customer and product sets. -/
def salesS7 (rc : List RawCustomer) (rp : List RawProduct) (rs : List RawSale) : List SaleStr :=
  ((salesS6 rs).filter
      (fun s => decide (s.customer_id ∈ (customersClean rc).map (fun c => c.customer_id)))).filter
    (fun s => decide (s.product_id ∈ (productsClean rp).map (fun p => p.product_id)))

/-! ## Surrogate-key maps (Python dict semantics) -/

/-- Model of `d[k] = v` on a Python dict kept as an insertion-ordered
association list: overwrite in place or append. -/
def dictUpsert (m : List (String × ℕ)) (k : String) (v : ℕ) : List (String × ℕ) :=
  if m.any (fun p => p.1 == k) then m.map (fun p => if p.1 = k then (k, v) else p)
  else m ++ [(k, v)]

/-- Model of `d.get(k)`. -/
def dictGet (m : List (String × ℕ)) (k : String) : Option ℕ :=
  (m.find? (fun p => p.1 == k)).map (fun p => p.2)

/-! ## Transactional load (lines 394-487) -/

/-- A loaded `customers` table row (surrogate integer key). -/
structure LCust where
  customer_id : ℕ
  first_name : String
  last_name : String
  email : String
  phone : Option String
  city : String
  registration_date : Option DateYMD
deriving DecidableEq, Repr

/-- A loaded `products` table row. -/
structure LProd where
  product_id : ℕ
  product_name : String
  category : String
  price : Dec
  stock_quantity : ℤ
deriving DecidableEq, Repr

/-- A loaded `orders` table row. -/
structure LOrder where
  order_id : ℕ
  customer_id : ℕ
  order_date : Option DateYMD
  total_amount : Dec
  status : String
deriving DecidableEq, Repr

/-- A loaded `order_items` table row. -/
structure LItem where
  order_item_id : ℕ
  order_id : ℕ
  product_id : ℕ
  quantity : ℤ
  unit_price : Dec
  subtotal : Dec
deriving DecidableEq, Repr

/-- The customer insert loop (lines 400-417): each insert receives the next
auto-increment key (`lastrowid`, starting at 1 after the truncate) and the
natural-key→surrogate-key mapping is recorded as it goes. -/
def loadCustomersAux (n : ℕ) (m : List (String × ℕ)) :
    List CustomerClean → List LCust × List (String × ℕ)
  | [] => ([], m)
  | c :: cs =>
    let pk := n + 1
    let rest := loadCustomersAux pk (dictUpsert m c.customer_id pk) cs
    (⟨pk, c.first_name, c.last_name, c.email, c.phone, c.city, c.registration_date⟩ :: rest.1,
     rest.2)

def custLoad (rc : List RawCustomer) : List LCust × List (String × ℕ) :=
  loadCustomersAux 0 [] (customersClean rc)

/-- The product insert loop (lines 419-434); the stored price is
`to_decimal_2` of the cleaned numeric price. -/
def loadProductsAux (n : ℕ) (m : List (String × ℕ)) :
    List ProductClean → List LProd × List (String × ℕ)
  | [] => ([], m)
  | p :: ps =>
    let pk := n + 1
    let rest := loadProductsAux pk (dictUpsert m p.product_id pk) ps
    (⟨pk, p.product_name, p.category, to_decimal_2 p.price_num, p.stock_num⟩ :: rest.1,
     rest.2)

def prodLoad (rp : List RawProduct) : List LProd × List (String × ℕ) :=
  loadProductsAux 0 [] (productsClean rp)

/-- Order status (line 463): `normalize_spaces(status).title() or "Pending"`. -/
def statusOf (s : SaleStr) : String :=
  let t := pyTitle (normalize_spaces (some s.status))
  if t = "" then "Pending" else t

/-- The orders/order-items insert loop (lines 446-478): every sales row whose
natural keys resolve through the maps (to truthy surrogate keys) inserts
exactly one order and one order item; otherwise the row is skipped. -/
def loadSalesAux (cmap pmap : List (String × ℕ)) (os : List LOrder) (its : List LItem) :
    List SaleStr → List LOrder × List LItem
  | [] => (os, its)
  | s :: ss =>
    match dictGet cmap s.customer_id, dictGet pmap s.product_id with
    | some cust_pk, some prod_pk =>
      if cust_pk = 0 ∨ prod_pk = 0 then loadSalesAux cmap pmap os its ss
      else
        let qty := qtyOf s
        let unit_price := to_decimal_2 ((parseDecimal s.unit_price).getD ⟨0, 0⟩)
        let subtotal := to_decimal_2 (unit_price.mul (Dec.ofInt qty))
        let order_id := os.length + 1
        let o : LOrder :=
          ⟨order_id, cust_pk, parse_flex_date (some s.transaction_date), subtotal, statusOf s⟩
        let it : LItem := ⟨its.length + 1, order_id, prod_pk, qty, unit_price, subtotal⟩
        loadSalesAux cmap pmap (os ++ [o]) (its ++ [it]) ss
    | _, _ => loadSalesAux cmap pmap os its ss

def salesLoad (rc : List RawCustomer) (rp : List RawProduct) (rs : List RawSale) :
    List LOrder × List LItem :=
  loadSalesAux (custLoad rc).2 (prodLoad rp).2 [] [] (salesS7 rc rp rs)

/-! ## Quality report counters (lines 283-304 and their updates) -/

structure Report where
  customers_raw : ℕ
  products_raw : ℕ
  sales_raw : ℕ
  customers_dupes_removed : ℕ
  products_dupes_removed : ℕ
  sales_dupes_removed : ℕ
  customers_missing_email_filled : ℕ
  products_missing_price_imputed : ℕ
  products_missing_stock_filled : ℕ
  sales_missing_customer_dropped : ℕ
  sales_missing_product_dropped : ℕ
  sales_invalid_date_dropped : ℕ
  customers_loaded : ℕ
  products_loaded : ℕ
  orders_loaded : ℕ
  order_items_loaded : ℕ
deriving DecidableEq, Repr

/-- The report dictionary as populated by a successful `run_etl` run. -/
def buildReport (rc : List RawCustomer) (rp : List RawProduct) (rs : List RawSale) : Report :=
  { customers_raw := (customersStr rc).length
    products_raw := (productsStr rp).length
    sales_raw := (salesStr rs).length
    customers_dupes_removed := (customersStr rc).length - (customersDedup rc).length
    products_dupes_removed := (productsStr rp).length - (productsDedup rp).length
    sales_dupes_removed := (salesStr rs).length - (salesS1 rs).length
    customers_missing_email_filled := (customersDedup rc).countP (fun c => c.email == "")
    products_missing_price_imputed := (productsStage rp).countP (fun r => r.price_num.isNone)
    products_missing_stock_filled :=
      (productsImputed rp).countP (fun r => (parseDecimal r.stock_quantity).isNone)
    sales_missing_customer_dropped := (salesS1 rs).countP (fun s => s.customer_id == "")
    sales_missing_product_dropped := (salesS2 rs).countP (fun s => s.product_id == "")
    sales_invalid_date_dropped :=
      (salesS5 rs).countP (fun s => (parse_flex_date (some s.transaction_date)).isNone)
    customers_loaded := (custLoad rc).2.length
    products_loaded := (prodLoad rp).2.length
    orders_loaded := (salesLoad rc rp rs).1.length
    order_items_loaded := (salesLoad rc rp rs).2.length }

/-! ## The unit of work against the relational store -/

/-- The state of the four target tables. -/
structure DBState where
  customers : List LCust
  products : List LProd
  orders : List LOrder
  order_items : List LItem
deriving DecidableEq, Repr

/-- Model of `truncate_tables` (lines 255-264): all four tables are emptied
and — crucially — the truncation is committed (line 263) before any insert
runs. -/
def truncate_tables (_ : DBState) : DBState := ⟨[], [], [], []⟩

/-- A single row insert executed inside the unit of work. -/
inductive InsertOp : Type
  | cust (c : LCust)
  | prod (p : LProd)
  | ord (o : LOrder)
  | item (i : LItem)
deriving DecidableEq, Repr

def applyOp (db : DBState) : InsertOp → DBState
  | .cust c => { db with customers := db.customers ++ [c] }
  | .prod p => { db with products := db.products ++ [p] }
  | .ord o => { db with orders := db.orders ++ [o] }
  | .item i => { db with order_items := db.order_items ++ [i] }

/-- The full insert sequence of a run, in source order: customers, products,
then for each surviving sales row its order immediately followed by its
order item. -/
def buildOps (rc : List RawCustomer) (rp : List RawProduct) (rs : List RawSale) : List InsertOp :=
  (custLoad rc).1.map InsertOp.cust ++ (prodLoad rp).1.map InsertOp.prod ++
    ((salesLoad rc rp rs).1.zip (salesLoad rc rp rs).2).flatMap
      (fun oi => [InsertOp.ord oi.1, InsertOp.item oi.2])

/-- Outcome of one load run: the durable database state, whether the error
propagated to the caller, and whether the quality report file was written. -/
structure RunOutcome where
  db : DBState
  errored : Bool
  reportWritten : Bool
deriving DecidableEq, Repr

/-- Execution of the unit of work with an injected failure point.
`failAt = some i` raises an exception just before the `i`-th remaining
insert executes (or, when `i` is the number of inserts, at the final
commit); per lines 483-487 the transaction is rolled back to the last
committed state, the exception propagates, and the report write
(lines 489-517) is skipped.  Without a failure everything commits and the
report is written. -/
def runTxnAux : DBState → DBState → List InsertOp → Option ℕ → RunOutcome
  | committed, _, _, some 0 => ⟨committed, true, false⟩
  | _, working, [], _ => ⟨working, false, true⟩
  | committed, working, op :: ops, failAt =>
    runTxnAux committed (applyOp working op) ops (failAt.map (fun i => i - 1))

/-- Model of the load step of `run_etl` (lines 394-487): truncate (which
commits), then run the insert sequence as one transaction. -/
def run_load (prior : DBState) (rc : List RawCustomer) (rp : List RawProduct)
    (rs : List RawSale) (failAt : Option ℕ) : RunOutcome :=
  runTxnAux (truncate_tables prior) (truncate_tables prior) (buildOps rc rp rs) failAt

/-! ## Specification-side row builders (used to characterise the loaders) -/

/-- The surrogate-key association produced by an insert loop that starts its
auto-increment counter after `n` and inserts the rows in order. -/
def idPairs {α : Type} (key : α → String) : ℕ → List α → List (String × ℕ)
  | _, [] => []
  | n, x :: xs => (key x, n + 1) :: idPairs key (n + 1) xs

/-- The `products` row inserted for a cleaned product with surrogate key `pk`. -/
def lpRow (pk : ℕ) (p : ProductClean) : LProd :=
  ⟨pk, p.product_name, p.category, to_decimal_2 p.price_num, p.stock_num⟩

def lpRows : ℕ → List ProductClean → List LProd
  | _, [] => []
  | n, p :: ps => lpRow (n + 1) p :: lpRows (n + 1) ps

/-- The order row inserted for a sales row with surrogate order key `oid`. -/
def mkOrderRow (cmap : List (String × ℕ)) (oid : ℕ) (s : SaleStr) : LOrder :=
  let unit_price := to_decimal_2 ((parseDecimal s.unit_price).getD ⟨0, 0⟩)
  ⟨oid, (dictGet cmap s.customer_id).getD 0, parse_flex_date (some s.transaction_date),
   to_decimal_2 (unit_price.mul (Dec.ofInt (qtyOf s))), statusOf s⟩

def mkOrders (cmap : List (String × ℕ)) : ℕ → List SaleStr → List LOrder
  | _, [] => []
  | n, s :: ss => mkOrderRow cmap (n + 1) s :: mkOrders cmap (n + 1) ss

/-- The order-item row inserted for a sales row with surrogate item key `iid`
referencing order `oid`. -/
def mkItemRow (pmap : List (String × ℕ)) (iid oid : ℕ) (s : SaleStr) : LItem :=
  let unit_price := to_decimal_2 ((parseDecimal s.unit_price).getD ⟨0, 0⟩)
  ⟨iid, oid, (dictGet pmap s.product_id).getD 0, qtyOf s, unit_price,
   to_decimal_2 (unit_price.mul (Dec.ofInt (qtyOf s)))⟩

def mkItems (pmap : List (String × ℕ)) : ℕ → ℕ → List SaleStr → List LItem
  | _, _, [] => []
  | ni, no, s :: ss => mkItemRow pmap (ni + 1) (no + 1) s :: mkItems pmap (ni + 1) (no + 1) ss

/-! ## Concrete fixtures used by witnesses and counterexamples -/

/-- A single raw sales row whose quantity is the text "0". -/
def rsQty0 : List RawSale :=
  [⟨some "T1", some "C1", some "P1", some "0", some "10.0", some "2024-01-05", some "Paid"⟩]

/-- A raw product with a negative price text and a negative stock text. -/
def rpNeg : List RawProduct := [⟨some "P1", some "Shirt", some "Fashion", some "-5", some "-3"⟩]

/-- Three raw products: a missing-price "Fashion" row and two "Fashion" peers
priced 100.00 and 300.00. -/
def rpFashion : List RawProduct :=
  [⟨some "P1", some "Bag", some "Fashion", none, some "5"⟩,
   ⟨some "P2", some "Hat", some "fashion", some "100.00", some "5"⟩,
   ⟨some "P3", some "Tie", some "Fashion", some "300.00", some "5"⟩]

/-- One well-formed raw customer. -/
def rcW : List RawCustomer :=
  [⟨some "C1", some "Asha", some "Rao", some "ASHA@X.com", some "9876543210",
    some "delhi", some "2024-01-02"⟩]

/-- One well-formed raw product. -/
def rpW : List RawProduct := [⟨some "P1", some "Pen", some "Stationery", some "10.5", some "7"⟩]

/-- One well-formed raw sales row referencing them. -/
def rsW : List RawSale :=
  [⟨some "T1", some "C1", some "P1", some "2", some "10.5", some "15/01/2024", some "paid"⟩]

/-- A database state holding one customer row from a previous run. -/
def priorDB : DBState :=
  ⟨[⟨1, "Old", "User", "old@fleximart.local", none, "Delhi", none⟩], [], [], []⟩

/-! # Supporting lemmas -/

/-- A digit character is not a Python whitespace character. -/
theorem digit_not_pyIsSpace (c : Char) (h : c.isDigit = true) : pyIsSpace c = false := by
  rcases Bool.eq_false_or_eq_true (pyIsSpace c) with ht | hf
  swap
  · exact hf
  · exfalso
    simp only [pyIsSpace, Bool.or_eq_true, beq_iff_eq] at ht
    rcases ht with ((((h1 | h1) | h1) | h1) | h1) | h1 <;> subst h1 <;>
      exact absurd h (by decide)

/-- A nonempty all-digit character list is not all-whitespace. -/
theorem all_digits_not_all_space (l : List Char) (hne : l ≠ [])
    (hd : l.all Char.isDigit = true) : l.all pyIsSpace = false := by
  cases l with
  | nil => exact absurd rfl hne
  | cons c t =>
    have hc : c.isDigit = true := by
      simp only [List.all_cons, Bool.and_eq_true] at hd
      exact hd.1
    simp [List.all_cons, digit_not_pyIsSpace c hc]

/-! ## Deduplication lemmas -/

/-- Every row kept by `dedupByAux` has an unseen key and is the first row of
the input with its key. -/
theorem dedupByAux_mem {α β : Type} [DecidableEq β] (key : α → β) :
    ∀ (l : List α) (seen : List β) (x : α), x ∈ dedupByAux key seen l →
      key x ∉ seen ∧ l.find? (fun y => key y == key x) = some x := by
  intro l
  induction l with
  | nil => intro seen x hx; simp [dedupByAux] at hx
  | cons a t ih =>
    intro seen x hx
    by_cases ha : key a ∈ seen
    · simp only [dedupByAux, if_pos ha] at hx
      obtain ⟨h1, h2⟩ := ih seen x hx
      refine ⟨h1, ?_⟩
      rw [List.find?_cons_of_neg, h2]
      simp only [beq_iff_eq]
      intro hk
      exact h1 (hk ▸ ha)
    · simp only [dedupByAux, if_neg ha, List.mem_cons] at hx
      rcases hx with rfl | hx
      · refine ⟨ha, ?_⟩
        rw [List.find?_cons_of_pos]
        simp
      · obtain ⟨h1, h2⟩ := ih (key a :: seen) x hx
        simp only [List.mem_cons, not_or] at h1
        refine ⟨h1.2, ?_⟩
        rw [List.find?_cons_of_neg, h2]
        simp only [beq_iff_eq]
        exact fun hk => h1.1 hk.symm

/-- The keys of the rows kept by `dedupByAux` are pairwise distinct. -/
theorem dedupByAux_nodup {α β : Type} [DecidableEq β] (key : α → β) :
    ∀ (l : List α) (seen : List β), ((dedupByAux key seen l).map key).Nodup := by
  intro l
  induction l with
  | nil => intro seen; simp [dedupByAux]
  | cons a t ih =>
    intro seen
    by_cases ha : key a ∈ seen
    · simpa only [dedupByAux, if_pos ha] using ih seen
    · simp only [dedupByAux, if_neg ha, List.map_cons, List.nodup_cons]
      refine ⟨?_, ih _⟩
      intro hmem
      rw [List.mem_map] at hmem
      obtain ⟨x, hx, hkx⟩ := hmem
      exact (dedupByAux_mem key t (key a :: seen) x hx).1 (by rw [hkx]; exact List.mem_cons_self _ _)

/-- The key of every input row is seen or represented in the output. -/
theorem dedupByAux_covers {α β : Type} [DecidableEq β] (key : α → β) :
    ∀ (l : List α) (seen : List β) (y : α), y ∈ l →
      key y ∈ seen ∨ key y ∈ (dedupByAux key seen l).map key := by
  intro l
  induction l with
  | nil => intro seen y hy; simp at hy
  | cons a t ih =>
    intro seen y hy
    rcases List.mem_cons.mp hy with rfl | hy
    · by_cases ha : key y ∈ seen
      · exact Or.inl ha
      · right
        simp [dedupByAux, if_neg ha]
    · by_cases ha : key a ∈ seen
      · simpa only [dedupByAux, if_pos ha] using ih seen y hy
      · rcases ih (key a :: seen) y hy with hs | ho
        · rcases List.mem_cons.mp hs with heq | hs
          · right
            simp [dedupByAux, if_neg ha, heq]
          · exact Or.inl hs
        · right
          simp only [dedupByAux, if_neg ha, List.map_cons, List.mem_cons]
          exact Or.inr ho

/-- `dedupByAux` leaves a key-nodup list whose keys avoid `seen` unchanged. -/
theorem dedupByAux_fixpoint {α β : Type} [DecidableEq β] (key : α → β) :
    ∀ (l : List α) (seen : List β), (∀ x ∈ l, key x ∉ seen) → ((l.map key).Nodup) →
      dedupByAux key seen l = l := by
  intro l
  induction l with
  | nil => intro seen _ _; rfl
  | cons a t ih =>
    intro seen hs hn
    have ha : key a ∉ seen := hs a (List.mem_cons_self _ _)
    simp only [dedupByAux, if_neg ha, List.cons.injEq, true_and]
    apply ih
    · intro x hx
      simp only [List.mem_cons, not_or]
      constructor
      · intro hk
        simp only [List.map_cons, List.nodup_cons] at hn
        exact hn.1 (by rw [← hk]; exact List.mem_map_of_mem key hx)
      · exact hs x (List.mem_cons_of_mem _ hx)
    · simp only [List.map_cons, List.nodup_cons] at hn
      exact hn.2

/-- `dedupByAux` never lengthens a list. -/
theorem dedupByAux_length_le {α β : Type} [DecidableEq β] (key : α → β) :
    ∀ (l : List α) (seen : List β), (dedupByAux key seen l).length ≤ l.length := by
  intro l
  induction l with
  | nil => intro seen; simp [dedupByAux]
  | cons a t ih =>
    intro seen
    by_cases ha : key a ∈ seen
    · simp only [dedupByAux, if_pos ha]
      exact Nat.le_succ_of_le (ih seen)
    · simp only [dedupByAux, if_neg ha, List.length_cons]
      exact Nat.succ_le_succ (ih _)

/-- C10: the deduplication used for customers, products and sales retains
only the first-encountered row per natural key (every kept row is the first
input row with its key, kept keys are pairwise distinct, every input key is
represented), and deduplication is idempotent: applied to an
already-deduplicated collection it returns it unchanged. -/
theorem c10_dedup_first_seen_idempotent :
    (∀ (α : Type) (key : α → String) (l : List α),
        dedupBy key (dedupBy key l) = dedupBy key l ∧
        (∀ x ∈ dedupBy key l, l.find? (fun y => key y == key x) = some x) ∧
        ((dedupBy key l).map key).Nodup ∧
        (∀ y ∈ l, key y ∈ (dedupBy key l).map key)) ∧
    (∀ rc : List RawCustomer,
        dedupBy (fun c => c.customer_id) (customersDedup rc) = customersDedup rc) ∧
    (∀ rp : List RawProduct,
        dedupBy (fun p => p.product_id) (productsDedup rp) = productsDedup rp) ∧
    (∀ rs : List RawSale,
        dedupBy (fun s => s.transaction_id) (salesS1 rs) = salesS1 rs) := by
  have main : ∀ (α : Type) (key : α → String) (l : List α),
      dedupBy key (dedupBy key l) = dedupBy key l ∧
      (∀ x ∈ dedupBy key l, l.find? (fun y => key y == key x) = some x) ∧
      ((dedupBy key l).map key).Nodup ∧
      (∀ y ∈ l, key y ∈ (dedupBy key l).map key) := by
    intro α key l
    refine ⟨?_, ?_, ?_, ?_⟩
    · exact dedupByAux_fixpoint key _ [] (by simp) (dedupByAux_nodup key l [])
    · intro x hx
      exact (dedupByAux_mem key l [] x hx).2
    · exact dedupByAux_nodup key l []
    · intro y hy
      rcases dedupByAux_covers key l [] y hy with hs | ho
      · simp at hs
      · exact ho
  exact ⟨main, fun rc => (main _ _ (customersStr rc)).1,
    fun rp => (main _ _ (productsStr rp)).1, fun rs => (main _ _ (salesStr rs)).1⟩

/-- C10 witness: the general theorem applied to a concrete collection with a
duplicated key. -/
theorem c10_witness :
    dedupBy (fun s => s.transaction_id) (salesS1 rsQty0) = salesS1 rsQty0 ∧
    dedupBy (fun p => p.1) [("a", 1), ("b", 2), ("a", 3)] = [("a", 1), ("b", 2)] := by
  refine ⟨(c10_dedup_first_seen_idempotent).2.2.2 rsQty0, ?_⟩
  decide

/-! ## Phone lemmas -/

/-- An all-digit list passes the digit filter unchanged. -/
theorem filter_digits_self (l : List Char) (hd : l.all Char.isDigit = true) :
    l.filter Char.isDigit = l :=
  List.filter_eq_self.mpr (by simpa [List.all_eq_true] using hd)

/-- The stripping chain is the identity on exactly ten digits. -/
theorem phoneStrip_len10 (l : List Char) (h : l.length = 10) : phoneStrip l = l := by
  simp [phoneStrip, h]

/-- The stripping chain removes a two-character country prefix from a
12-character list. -/
theorem phoneStrip_prefix91 (t : List Char) (h : t.length = 10) :
    phoneStrip ('9' :: '1' :: t) = t := by
  simp [phoneStrip, h, List.take, List.drop]

/-- The stripping chain removes a leading trunk zero from an 11-character
list. -/
theorem phoneStrip_prefix0 (t : List Char) (h : t.length = 10) :
    phoneStrip ('0' :: t) = t := by
  simp [phoneStrip, h, List.take, List.drop]

/-- Unfolding of `normalize_phone` on a non-blank input with exactly ten
stripped digits. -/
theorem normalize_phone_eval (s : String) (hsp : s.toList.all pyIsSpace = false)
    (hlen : (strippedDigits s).length = 10) :
    normalize_phone (some s) = some ("+91-" ++ String.mk (strippedDigits s)) := by
  have hstep : normalize_phone (some s) =
      if s.toList.all pyIsSpace then none
      else if (strippedDigits s).length ≠ 10 then none
      else some ("+91-" ++ String.mk (strippedDigits s)) := rfl
  rw [hstep, if_neg (by rw [hsp]; exact Bool.false_ne_true), if_neg (by omega)]

/-- C9: whenever the digit extraction and stripping chain leaves anything
other than exactly ten digits, `normalize_phone` returns null. -/
theorem c9_phone_non_ten_digits_null (s : String) (h : (strippedDigits s).length ≠ 10) :
    normalize_phone (some s) = none := by
  have hstep : normalize_phone (some s) =
      if s.toList.all pyIsSpace then none
      else if (strippedDigits s).length ≠ 10 then none
      else some ("+91-" ++ String.mk (strippedDigits s)) := rfl
  rw [hstep]
  by_cases hsp : s.toList.all pyIsSpace = true
  · rw [if_pos hsp]
  · rw [if_neg hsp, if_pos h]

/-- C9 witness: a three-digit input strips to three digits and is rejected. -/
theorem c9_witness :
    (strippedDigits "123").length ≠ 10 ∧ normalize_phone (some "123") = none :=
  ⟨by decide, c9_phone_non_ten_digits_null "123" (by decide)⟩

/-- C4: `normalize_phone` keeps only digit characters, strips a 12-digit "91"
country prefix or an 11-digit leading "0", keeps the last ten digits
otherwise, and formats exactly ten remaining digits as `+91-` followed by
them — so the four valid variants of the same 10-digit number produce the
identical canonical string. -/
theorem c4_phone_variants_canonical (d : String) (h10 : d.toList.length = 10)
    (hdig : d.toList.all Char.isDigit = true) :
    normalize_phone (some d) = some ("+91-" ++ d) ∧
    normalize_phone (some ("+91-" ++ d)) = some ("+91-" ++ d) ∧
    normalize_phone (some ("0" ++ d)) = some ("+91-" ++ d) ∧
    normalize_phone (some ("91" ++ d)) = some ("+91-" ++ d) := by
  have hne : d.toList ≠ [] := by
    intro hcon
    rw [hcon] at h10
    simp at h10
  have hfilter : d.toList.filter Char.isDigit = d.toList := filter_digits_self _ hdig
  have hmk : String.mk d.toList = d := rfl
  refine ⟨?_, ?_, ?_, ?_⟩
  · have hsd : strippedDigits d = d.toList := by
      rw [strippedDigits, hfilter, phoneStrip_len10 _ h10]
    rw [normalize_phone_eval d (all_digits_not_all_space d.toList hne hdig) (by rw [hsd, h10]),
      hsd, hmk]
  · have htl : ("+91-" ++ d).toList = ['+', '9', '1', '-'] ++ d.toList := rfl
    have hsp : ("+91-" ++ d).toList.all pyIsSpace = false := by
      rw [htl, List.all_append]
      have hx : (['+', '9', '1', '-'] : List Char).all pyIsSpace = false := by decide
      rw [hx, Bool.false_and]
    have hsd : strippedDigits ("+91-" ++ d) = d.toList := by
      rw [strippedDigits, htl, List.filter_append, hfilter]
      have hx : (['+', '9', '1', '-'] : List Char).filter Char.isDigit = ['9', '1'] := by decide
      rw [hx]
      exact phoneStrip_prefix91 _ h10
    rw [normalize_phone_eval _ hsp (by rw [hsd, h10]), hsd, hmk]
  · have htl : ("0" ++ d).toList = ['0'] ++ d.toList := rfl
    have hsp : ("0" ++ d).toList.all pyIsSpace = false := by
      rw [htl, List.all_append]
      have hx : (['0'] : List Char).all pyIsSpace = false := by decide
      rw [hx, Bool.false_and]
    have hsd : strippedDigits ("0" ++ d) = d.toList := by
      rw [strippedDigits, htl, List.filter_append, hfilter]
      have hx : (['0'] : List Char).filter Char.isDigit = ['0'] := by decide
      rw [hx]
      exact phoneStrip_prefix0 _ h10
    rw [normalize_phone_eval _ hsp (by rw [hsd, h10]), hsd, hmk]
  · have htl : ("91" ++ d).toList = ['9', '1'] ++ d.toList := rfl
    have hsp : ("91" ++ d).toList.all pyIsSpace = false := by
      rw [htl, List.all_append]
      have hx : (['9', '1'] : List Char).all pyIsSpace = false := by decide
      rw [hx, Bool.false_and]
    have hsd : strippedDigits ("91" ++ d) = d.toList := by
      rw [strippedDigits, htl, List.filter_append, hfilter]
      have hx : (['9', '1'] : List Char).filter Char.isDigit = ['9', '1'] := by decide
      rw [hx]
      exact phoneStrip_prefix91 _ h10
    rw [normalize_phone_eval _ hsp (by rw [hsd, h10]), hsd, hmk]

/-- C4 witness: the four variants of 9876543210 all canonicalise to
"+91-9876543210". -/
theorem c4_witness :
    "9876543210".toList.length = 10 ∧ "9876543210".toList.all Char.isDigit = true ∧
    (normalize_phone (some "9876543210") = some "+91-9876543210" ∧
     normalize_phone (some ("+91-" ++ "9876543210")) = some "+91-9876543210" ∧
     normalize_phone (some ("0" ++ "9876543210")) = some "+91-9876543210" ∧
     normalize_phone (some ("91" ++ "9876543210")) = some "+91-9876543210") :=
  ⟨by decide, by decide,
    c4_phone_variants_canonical "9876543210" (by decide) (by decide)⟩

/-! ## Flexible-date claims -/

/-- C3: for three-part date strings with no 4-character first part,
`parse_flex_date` resolves the layout by the fixed precedence — month-first
when the second part exceeds 12, else day-first when the first part exceeds
12, else the ambiguous month-first default — and parses accordingly; the
three reference examples parse as specified. -/
theorem c3_date_layout_precedence :
    (∀ ai bi : ℕ, chooseDayfirst ai bi = true ↔ (bi ≤ 12 ∧ 12 < ai)) ∧
    (∀ (s : String) (a b c : List Char) (ai bi : ℕ),
      s.toList.all pyIsSpace = false →
      isFastYmd ((normalize_spaces (some s)).toList) = false →
      ((normalize_spaces (some s)).toList.contains '/'
        || (normalize_spaces (some s)).toList.contains '-') = true →
      (normalize_spaces (some s)).toList.splitOn
          (if (normalize_spaces (some s)).toList.contains '/' then '/' else '-') = [a, b, c] →
      a.length ≠ 4 →
      parseNatStrict a = some ai → parseNatStrict b = some bi →
      parse_flex_date (some s)
        = pdDatetime (chooseDayfirst ai bi) ((normalize_spaces (some s)).toList)) ∧
    parse_flex_date (some "2024-03-05") = some ⟨2024, 3, 5⟩ ∧
    parse_flex_date (some "15/01/2024") = some ⟨2024, 1, 15⟩ ∧
    parse_flex_date (some "03-04-2024") = some ⟨2024, 3, 4⟩ := by
  refine ⟨?_, ?_, by decide, by decide, by decide⟩
  · intro ai bi
    unfold chooseDayfirst
    split_ifs with h1 h2 <;> simp <;> omega
  · intro s a b c ai bi hsp hfast hc hsplit h4 ha hb
    simp only [parse_flex_date, hsp, Bool.false_eq_true, if_false, hfast, hc, if_true,
      hsplit, h4, ha, hb]

/-- C3 witness: the theorem applied to the day-first example 15/01/2024. -/
theorem c3_witness :
    parse_flex_date (some "15/01/2024")
      = pdDatetime (chooseDayfirst 15 1) ((normalize_spaces (some "15/01/2024")).toList) ∧
    chooseDayfirst 15 1 = true ∧
    pdDatetime true ((normalize_spaces (some "15/01/2024")).toList) = some ⟨2024, 1, 15⟩ :=
  ⟨c3_date_layout_precedence.2.1 "15/01/2024" ['1', '5'] ['0', '1'] ['2', '0', '2', '4'] 15 1
      (by decide) (by decide) (by decide) (by decide) (by decide) (by decide) (by decide),
   by decide, by decide⟩

/-- C8 (amended): null/blank inputs and parse failures yield null, but a
split that does not yield exactly three parts falls back to the generic
parser rather than returning null directly; only when that generic parse
also fails is null returned. -/
theorem c8_non_three_part_generic_fallback :
    parse_flex_date none = none ∧
    (∀ s : String, s.toList.all pyIsSpace = true → parse_flex_date (some s) = none) ∧
    (∀ (s : String) (parts : List (List Char)),
      s.toList.all pyIsSpace = false →
      isFastYmd ((normalize_spaces (some s)).toList) = false →
      ((normalize_spaces (some s)).toList.contains '/'
        || (normalize_spaces (some s)).toList.contains '-') = true →
      (normalize_spaces (some s)).toList.splitOn
          (if (normalize_spaces (some s)).toList.contains '/' then '/' else '-') = parts →
      parts.length ≠ 3 →
      parse_flex_date (some s) = pdDatetime false ((normalize_spaces (some s)).toList)) := by
  refine ⟨rfl, ?_, ?_⟩
  · intro s hsp
    simp only [parse_flex_date, hsp, if_true]
  · intro s parts hsp hfast hc hsplit hlen
    simp only [parse_flex_date, hsp, Bool.false_eq_true, if_false, hfast, hc, if_true, hsplit]
    rcases parts with _ | ⟨a, _ | ⟨b, _ | ⟨c, _ | ⟨e, tl⟩⟩⟩⟩
    · rfl
    · rfl
    · rfl
    · exact absurd rfl hlen
    · rfl

/-- C8 witness: "2024-05" splits into two parts and takes the generic
fallback, which parses it as 2024-05-01. -/
theorem c8_witness :
    parse_flex_date (some "2024-05")
      = pdDatetime false ((normalize_spaces (some "2024-05")).toList) ∧
    pdDatetime false ((normalize_spaces (some "2024-05")).toList) = some ⟨2024, 5, 1⟩ :=
  ⟨c8_non_three_part_generic_fallback.2.2 "2024-05" _
      (by decide) (by decide) (by decide) rfl (by decide), by decide⟩

/-- C8 counterexample: "2024-05" splits on its identified separator into two
parts, yet `parse_flex_date` returns a date (2024-05-01), not null. -/
theorem c8_counterexample :
    ((normalize_spaces (some "2024-05")).toList.splitOn '-').length ≠ 3 ∧
    parse_flex_date (some "2024-05") ≠ none ∧
    parse_flex_date (some "2024-05") = some ⟨2024, 5, 1⟩ := by
  refine ⟨by decide, by decide, by decide⟩

/-! ## Transactional load claims -/

/-- A failure injected at or before the end of the insert sequence always
lands the run on the committed state with the error propagated and no report
written. -/
theorem runTxnAux_fail :
    ∀ (ops : List InsertOp) (committed working : DBState) (i : ℕ), i ≤ ops.length →
      runTxnAux committed working ops (some i) = ⟨committed, true, false⟩ := by
  intro ops
  induction ops with
  | nil =>
    intro c w i h
    have hi : i = 0 := Nat.le_zero.mp h
    subst hi
    rfl
  | cons op ops ih =>
    intro c w i h
    cases i with
    | zero => rfl
    | succ n =>
      have hstep : runTxnAux c w (op :: ops) (some (n + 1))
          = runTxnAux c (applyOp w op) ops (some n) := rfl
      rw [hstep]
      exact ih c (applyOp w op) n (by simpa using h)

/-- C1 (amended): any failure during the unit of work (injected before any
insert or at the commit) makes the error propagate and prevents the quality
report from being written, and no partially inserted row persists — but the
surviving durable state is the truncated (empty) tables, because
`truncate_tables` commits the truncation before the inserts begin; the
pre-run table contents are not restored. -/
theorem c1_failure_rolls_back_to_truncated_state (prior : DBState) (rc : List RawCustomer)
    (rp : List RawProduct) (rs : List RawSale) (i : ℕ)
    (h : i ≤ (buildOps rc rp rs).length) :
    run_load prior rc rp rs (some i) = ⟨⟨[], [], [], []⟩, true, false⟩ :=
  runTxnAux_fail (buildOps rc rp rs) (truncate_tables prior) (truncate_tables prior) i h

/-- C1 witness: a failure at the first insert of a one-customer run. -/
theorem c1_witness :
    0 ≤ (buildOps rcW [] []).length ∧
    run_load priorDB rcW [] [] (some 0) = ⟨⟨[], [], [], []⟩, true, false⟩ :=
  ⟨Nat.zero_le _, c1_failure_rolls_back_to_truncated_state priorDB rcW [] [] 0 (Nat.zero_le _)⟩

/-- C1 counterexample: a run over a store holding one customer from a
previous run fails during the unit of work; the error propagates and the
report is not written, but the resulting durable state is not the pre-run
state — the prior customer row is gone. -/
theorem c1_counterexample :
    (run_load priorDB rcW [] [] (some 0)).errored = true ∧
    (run_load priorDB rcW [] [] (some 0)).reportWritten = false ∧
    (run_load priorDB rcW [] [] (some 0)).db ≠ priorDB := by
  refine ⟨by decide, by decide, by decide⟩

/-! ## Natural-key preservation through cleaning -/

/-- Filling a missing email does not change the natural key. -/
theorem fillEmail_id (c : CustomerStr) : (fillEmail c).customer_id = c.customer_id := by
  unfold fillEmail
  split <;> rfl

/-- Customer cleaning does not change the natural key. -/
theorem cleanCustomer_id (c : CustomerStr) : (cleanCustomer c).customer_id = c.customer_id :=
  fillEmail_id c

/-- The cleaned customers carry exactly the deduplicated natural keys. -/
theorem customersClean_ids (rc : List RawCustomer) :
    (customersClean rc).map (fun c => c.customer_id)
      = (customersDedup rc).map (fun c => c.customer_id) := by
  have hf : ((fun c : CustomerClean => c.customer_id) ∘ cleanCustomer)
      = fun c : CustomerStr => c.customer_id := funext (fun c => cleanCustomer_id c)
  rw [customersClean, List.map_map, hf]

/-- The cleaned customer natural keys are pairwise distinct. -/
theorem customersClean_ids_nodup (rc : List RawCustomer) :
    ((customersClean rc).map (fun c => c.customer_id)).Nodup := by
  rw [customersClean_ids]
  exact dedupByAux_nodup _ _ []

/-- The staged products carry exactly the deduplicated natural keys. -/
theorem productsStage_ids (rp : List RawProduct) :
    (productsStage rp).map (fun p => p.product_id)
      = (productsDedup rp).map (fun p => p.product_id) := by
  rw [productsStage, List.map_map]
  rfl

/-- The staged product natural keys are pairwise distinct. -/
theorem productsStage_ids_nodup (rp : List RawProduct) :
    ((productsStage rp).map (fun p => p.product_id)).Nodup := by
  rw [productsStage_ids]
  exact dedupByAux_nodup _ _ []

/-- Imputation and the price `dropna` only delete rows, never rename keys. -/
theorem productsImputed_ids_sublist (rp : List RawProduct) :
    List.Sublist ((productsImputed rp).map (fun p => p.product_id))
      ((productsStage rp).map (fun p => p.product_id)) := by
  have h1 : List.Sublist (productsImputed rp)
      ((productsStage rp).map
        (fun r => { r with price_num := impute_price (productsStage rp) r })) := by
    rw [productsImputed]
    exact List.filter_sublist _
  have h2 := h1.map (fun p : ProductStage => p.product_id)
  rw [List.map_map] at h2
  exact h2

/-- The fully cleaned products carry the imputed-stage natural keys. -/
theorem productsClean_ids (rp : List RawProduct) :
    (productsClean rp).map (fun p => p.product_id)
      = (productsImputed rp).map (fun p => p.product_id) := by
  rw [productsClean, List.map_map]
  rfl

/-- The cleaned product natural keys are pairwise distinct. -/
theorem productsClean_ids_nodup (rp : List RawProduct) :
    ((productsClean rp).map (fun p => p.product_id)).Nodup := by
  rw [productsClean_ids]
  exact (productsStage_ids_nodup rp).sublist (productsImputed_ids_sublist rp)

/-! ## Median and imputation claims -/

/-- The median of a series is `NaN` exactly for the empty series. -/
theorem median_eq_none_iff (l : List Dec) : median l = none ↔ l = [] := by
  unfold median
  have hlen : (List.insertionSort Dec.le l).length = l.length := List.length_insertionSort _ l
  by_cases h0 : l = []
  · subst h0
    simp
  · have hpos : 0 < l.length := List.length_pos.mpr h0
    rw [if_neg (by omega)]
    refine iff_of_false ?_ h0
    have hdiv : (List.insertionSort Dec.le l).length / 2 < (List.insertionSort Dec.le l).length :=
      Nat.div_lt_self (by omega) (by norm_num)
    by_cases hodd : (List.insertionSort Dec.le l).length % 2 = 1
    · rw [if_pos hodd]
      intro hc
      rw [List.get?_eq_none] at hc
      omega
    · rw [if_neg hodd]
      rcases hga : (List.insertionSort Dec.le l).get? ((List.insertionSort Dec.le l).length / 2 - 1)
        with _ | a
      · rw [List.get?_eq_none] at hga
        omega
      rcases hgb : (List.insertionSort Dec.le l).get? ((List.insertionSort Dec.le l).length / 2)
        with _ | b
      · rw [List.get?_eq_none] at hgb
        omega
      simp

/-- C5: a product row whose price text is missing or unparsable receives the
median of the successfully-parsed prices of its (already-canonicalised)
category as cleaned price, and when that category has no parsed peer prices
the row is dropped from the cleaned products. -/
theorem c5_median_imputation (rp : List RawProduct) (r : ProductStage)
    (hr : r ∈ productsStage rp) (hmiss : r.price_num = none) :
    impute_price (productsStage rp) r = median (peerPrices (productsStage rp) r.category) ∧
    (median (peerPrices (productsStage rp) r.category) = none
      ↔ peerPrices (productsStage rp) r.category = []) ∧
    (∀ m, median (peerPrices (productsStage rp) r.category) = some m →
      { r with price_num := some m } ∈ productsImputed rp) ∧
    (median (peerPrices (productsStage rp) r.category) = none →
      ∀ r2 ∈ productsImputed rp, r2.product_id ≠ r.product_id) := by
  refine ⟨by simp [impute_price, hmiss], median_eq_none_iff _, ?_, ?_⟩
  · intro m hm
    rw [productsImputed]
    apply List.mem_filter.mpr
    refine ⟨?_, by simp⟩
    apply List.mem_map.mpr
    exact ⟨r, hr, by rw [show impute_price (productsStage rp) r = some m from by
      simp [impute_price, hmiss, hm]]⟩
  · intro hnone r2 hr2 heq
    rw [productsImputed] at hr2
    obtain ⟨hmem, hsome⟩ := List.mem_filter.mp hr2
    obtain ⟨r0, hr0, hr0eq⟩ := List.mem_map.mp hmem
    have hid : r0.product_id = r.product_id := by rw [← heq, ← hr0eq]
    have hr0r : r0 = r := List.inj_on_of_nodup_map (productsStage_ids_nodup rp) hr0 hr hid
    subst hr0r
    rw [← hr0eq] at hsome
    simp only [show impute_price (productsStage rp) r0 = none from by
      simp [impute_price, hmiss, hnone]] at hsome
    simp at hsome

/-- C5 witness: the Fashion row with missing price among peers priced 100.00
and 300.00 is imputed exactly 200.00 (stored as 200.00 after rounding). -/
theorem c5_witness :
    (⟨"P1", "Bag", "Fashion", none, "5"⟩ : ProductStage) ∈ productsStage rpFashion ∧
    impute_price (productsStage rpFashion) ⟨"P1", "Bag", "Fashion", none, "5"⟩
      = median (peerPrices (productsStage rpFashion) "Fashion") ∧
    median (peerPrices (productsStage rpFashion) "Fashion") = some ⟨20000000, 5⟩ ∧
    Dec.toRat ⟨20000000, 5⟩ = 200 ∧
    to_decimal_2 ⟨20000000, 5⟩ = ⟨20000, 2⟩ :=
  ⟨by decide,
   (c5_median_imputation rpFashion ⟨"P1", "Bag", "Fashion", none, "5"⟩
      (by decide) (by decide)).1,
   by decide, by norm_num [Dec.toRat], by decide⟩

/-! ## Product load claims -/

/-- The rows inserted by the product loop do not depend on the map
accumulator. -/
theorem loadProductsAux_rows (ps : List ProductClean) :
    ∀ (n : ℕ) (m : List (String × ℕ)), (loadProductsAux n m ps).1 = lpRows n ps := by
  induction ps with
  | nil => intro n m; rfl
  | cons p ps ih =>
    intro n m
    simp only [loadProductsAux, lpRows, lpRow]
    rw [ih]

theorem lpRows_length (ps : List ProductClean) : ∀ n, (lpRows n ps).length = ps.length := by
  induction ps with
  | nil => intro n; rfl
  | cons p ps ih =>
    intro n
    simp only [lpRows, List.length_cons, ih]

theorem lpRows_getElem (ps : List ProductClean) :
    ∀ (n k : ℕ) (h : k < (lpRows n ps).length) (h2 : k < ps.length),
      (lpRows n ps)[k] = lpRow (n + k + 1) ps[k] := by
  induction ps with
  | nil => intro n k h h2; simp at h2
  | cons p ps ih =>
    intro n k h h2
    cases k with
    | zero => rfl
    | succ k =>
      have hh : k < (lpRows (n + 1) ps).length := by
        simpa [lpRows, List.length_cons] using h
      have hh2 : k < ps.length := by simpa using h2
      have := ih (n + 1) k hh hh2
      simpa [lpRows, Nat.add_assoc, Nat.add_comm 1 k] using this

/-- Rounding to two fractional digits always produces a two-fractional-digit
fixed-point value. -/
theorem to_decimal_2_exp (d : Dec) : (to_decimal_2 d).exp = 2 := by
  unfold to_decimal_2
  split <;> rfl

/-- A two-fractional-digit value is its mantissa over 100. -/
theorem toRat_exp2 (d : Dec) (h : d.exp = 2) : d.toRat = (d.man : ℚ) / 100 := by
  rw [Dec.toRat, h]
  norm_num

/-- C6 (amended): every product that reaches the load step is stored with
price `to_decimal_2` of its cleaned numeric price — a fixed-point value with
exactly two fractional digits, rounded half-away-from-zero (ties 0.005 → 0.01
and -0.005 → -0.01) — and with its integer stock, which defaults to zero when
the raw stock is missing or unparsable.  (The source does not force the price
positive or the stock non-negative: negative raw values pass through.) -/
theorem c6_product_load_fixed_point :
    (∀ (rp : List RawProduct) (k : ℕ) (h1 : k < (prodLoad rp).1.length)
        (h2 : k < (productsClean rp).length) (h3 : k < (productsImputed rp).length),
      (prodLoad rp).1[k].price = to_decimal_2 (productsClean rp)[k].price_num ∧
      (prodLoad rp).1[k].price.exp = 2 ∧
      Dec.toRat (prodLoad rp).1[k].price = ((prodLoad rp).1[k].price.man : ℚ) / 100 ∧
      (prodLoad rp).1[k].stock_quantity = (productsClean rp)[k].stock_num ∧
      (parseDecimal (productsImputed rp)[k].stock_quantity = none →
        (prodLoad rp).1[k].stock_quantity = 0)) ∧
    to_decimal_2 ⟨5, 3⟩ = ⟨1, 2⟩ ∧ to_decimal_2 ⟨-5, 3⟩ = ⟨-1, 2⟩ := by
  refine ⟨?_, by decide, by decide⟩
  intro rp k h1 h2 h3
  have hrows : (prodLoad rp).1 = lpRows 0 (productsClean rp) := loadProductsAux_rows _ 0 []
  have hk : k < (lpRows 0 (productsClean rp)).length := by
    rw [← hrows]; exact h1
  have hget : (prodLoad rp).1[k] = lpRow (0 + k + 1) (productsClean rp)[k] := by
    rw [List.getElem_of_eq hrows h1]
    exact lpRows_getElem (productsClean rp) 0 k hk h2
  have hclean : (productsClean rp)[k] = cleanProduct (productsImputed rp)[k] := by
    show ((productsImputed rp).map cleanProduct)[k] = cleanProduct (productsImputed rp)[k]
    exact List.getElem_map cleanProduct
  refine ⟨by rw [hget]; rfl, by rw [hget]; exact to_decimal_2_exp _, ?_, by rw [hget]; rfl, ?_⟩
  · exact toRat_exp2 _ (by rw [hget]; exact to_decimal_2_exp _)
  · intro hparse
    rw [hget, hclean]
    show truncInt ((parseDecimal (productsImputed rp)[k].stock_quantity).getD ⟨0, 0⟩) = 0
    rw [hparse]
    rfl

/-- C6 witness: a product priced "10.5" with stock "7" loads with price
10.50 (mantissa 1050, two fractional digits). -/
theorem c6_witness :
    (prodLoad rpW).1.map (fun p => p.price) = [⟨1050, 2⟩] ∧
    (prodLoad rpW).1.map (fun p => p.stock_quantity) = [(7 : ℤ)] ∧
    (⟨1050, 2⟩ : Dec).exp = 2 ∧ Dec.toRat ⟨1050, 2⟩ = (1050 : ℚ) / 100 := by
  have h1 : 0 < (prodLoad rpW).1.length := by decide
  have h2 : 0 < (productsClean rpW).length := by decide
  have h3 : 0 < (productsImputed rpW).length := by decide
  have h := c6_product_load_fixed_point.1 rpW 0 h1 h2 h3
  have hmap : (prodLoad rpW).1.map (fun p => p.price) = [(⟨1050, 2⟩ : Dec)] := by decide
  have hm : 0 < ((prodLoad rpW).1.map (fun p => p.price)).length := by
    rw [hmap]; simp
  have heq : (prodLoad rpW).1[0].price = (⟨1050, 2⟩ : Dec) := by
    have h0 : ((prodLoad rpW).1.map (fun p => p.price))[0] = (prodLoad rpW).1[0].price :=
      List.getElem_map _
    rw [← h0, List.getElem_of_eq hmap]
    rfl
  refine ⟨by decide, by decide, ?_, ?_⟩
  · rw [← heq]
    exact h.2.1
  · have hr := h.2.2.1
    rw [heq] at hr
    exact hr

/-- C6 counterexample: a raw product with price text "-5" and stock text "-3"
reaches the load step with stored price -5.00 (not strictly positive) and
stock -3 (negative). -/
theorem c6_counterexample :
    (prodLoad rpNeg).1 = [⟨1, "Shirt", "Fashion", ⟨-500, 2⟩, -3⟩] ∧
    ¬(0 < Dec.toRat ⟨-500, 2⟩) ∧ ((-3 : ℤ) < 0) := by
  refine ⟨by decide, ?_, by decide⟩
  norm_num [Dec.toRat]

/-! ## Surrogate-key map lemmas -/

/-- Upserting an absent key appends it. -/
theorem dictUpsert_not_mem (m : List (String × ℕ)) (k : String) (v : ℕ)
    (h : k ∉ m.map (fun p => p.1)) : dictUpsert m k v = m ++ [(k, v)] := by
  rw [dictUpsert, if_neg]
  intro hc
  rw [List.any_eq_true] at hc
  obtain ⟨p, hp, hpk⟩ := hc
  rw [beq_iff_eq] at hpk
  exact h (by rw [← hpk]; exact List.mem_map_of_mem _ hp)

theorem idPairs_length {α : Type} (key : α → String) :
    ∀ (xs : List α) (n : ℕ), (idPairs key n xs).length = xs.length := by
  intro xs
  induction xs with
  | nil => intro n; rfl
  | cons x xs ih => intro n; simp [idPairs, ih]

/-- Looking up any represented key in the assignment succeeds with a
positive surrogate. -/
theorem dictGet_idPairs {α : Type} (key : α → String) :
    ∀ (xs : List α) (n : ℕ) (k : String), k ∈ xs.map key →
      ∃ v, dictGet (idPairs key n xs) k = some v ∧ 1 ≤ v := by
  intro xs
  induction xs with
  | nil => intro n k h; simp at h
  | cons x xs ih =>
    intro n k hk
    by_cases hx : key x = k
    · refine ⟨n + 1, ?_, by omega⟩
      show (((key x, n + 1) :: idPairs key (n + 1) xs).find?
          (fun p => p.1 == k)).map (fun p => p.2) = some (n + 1)
      rw [List.find?_cons_of_pos _ (by simp [hx])]
      rfl
    · have hk2 : k ∈ xs.map key := by
        rw [List.map_cons] at hk
        rcases List.mem_cons.mp hk with h | h
        · exact absurd h.symm hx
        · exact h
      obtain ⟨v, hv, hv1⟩ := ih (n + 1) k hk2
      refine ⟨v, ?_, hv1⟩
      show (((key x, n + 1) :: idPairs key (n + 1) xs).find?
          (fun p => p.1 == k)).map (fun p => p.2) = some v
      rw [List.find?_cons_of_neg _ (by simp [hx])]
      exact hv

/-- With pairwise-distinct natural keys disjoint from the accumulator, the
customer insert loop produces exactly the positional key assignment. -/
theorem loadCustomersAux_map :
    ∀ (cs : List CustomerClean) (n : ℕ) (m : List (String × ℕ)),
      ((cs.map (fun c => c.customer_id)).Nodup) →
      (∀ c ∈ cs, c.customer_id ∉ m.map (fun p => p.1)) →
      (loadCustomersAux n m cs).2 = m ++ idPairs (fun c => c.customer_id) n cs := by
  intro cs
  induction cs with
  | nil => intro n m _ _; simp [loadCustomersAux, idPairs]
  | cons c cs ih =>
    intro n m hnd hm
    have hc : c.customer_id ∉ m.map (fun p => p.1) := hm c (List.mem_cons_self _ _)
    rw [List.map_cons] at hnd
    obtain ⟨hnotin, htail⟩ := List.nodup_cons.mp hnd
    show (loadCustomersAux (n + 1) (dictUpsert m c.customer_id (n + 1)) cs).2
        = m ++ idPairs (fun c => c.customer_id) n (c :: cs)
    rw [dictUpsert_not_mem m _ _ hc]
    rw [ih (n + 1) (m ++ [(c.customer_id, n + 1)]) htail ?_]
    · rw [idPairs, List.append_assoc]
      rfl
    · intro c2 hc2
      rw [List.map_append, List.mem_append]
      rintro (h | h)
      · exact hm c2 (List.mem_cons_of_mem _ hc2) h
      · simp only [List.map_cons, List.map_nil, List.mem_singleton] at h
        exact hnotin (by rw [← h]; exact List.mem_map_of_mem _ hc2)

/-- With pairwise-distinct natural keys disjoint from the accumulator, the
product insert loop produces exactly the positional key assignment. -/
theorem loadProductsAux_map :
    ∀ (ps : List ProductClean) (n : ℕ) (m : List (String × ℕ)),
      ((ps.map (fun p => p.product_id)).Nodup) →
      (∀ p ∈ ps, p.product_id ∉ m.map (fun q => q.1)) →
      (loadProductsAux n m ps).2 = m ++ idPairs (fun p => p.product_id) n ps := by
  intro ps
  induction ps with
  | nil => intro n m _ _; simp [loadProductsAux, idPairs]
  | cons p ps ih =>
    intro n m hnd hm
    have hc : p.product_id ∉ m.map (fun q => q.1) := hm p (List.mem_cons_self _ _)
    rw [List.map_cons] at hnd
    obtain ⟨hnotin, htail⟩ := List.nodup_cons.mp hnd
    show (loadProductsAux (n + 1) (dictUpsert m p.product_id (n + 1)) ps).2
        = m ++ idPairs (fun p => p.product_id) n (p :: ps)
    rw [dictUpsert_not_mem m _ _ hc]
    rw [ih (n + 1) (m ++ [(p.product_id, n + 1)]) htail ?_]
    · rw [idPairs, List.append_assoc]
      rfl
    · intro p2 hp2
      rw [List.map_append, List.mem_append]
      rintro (h | h)
      · exact hm p2 (List.mem_cons_of_mem _ hp2) h
      · simp only [List.map_cons, List.map_nil, List.mem_singleton] at h
        exact hnotin (by rw [← h]; exact List.mem_map_of_mem _ hp2)

/-- The customer surrogate map assigns keys 1.. in cleaned order. -/
theorem custLoad_map (rc : List RawCustomer) :
    (custLoad rc).2 = idPairs (fun c => c.customer_id) 0 (customersClean rc) := by
  have h := loadCustomersAux_map (customersClean rc) 0 [] (customersClean_ids_nodup rc)
    (by simp)
  simpa using h

/-- The product surrogate map assigns keys 1.. in cleaned order. -/
theorem prodLoad_map (rp : List RawProduct) :
    (prodLoad rp).2 = idPairs (fun p => p.product_id) 0 (productsClean rp) := by
  have h := loadProductsAux_map (productsClean rp) 0 [] (productsClean_ids_nodup rp)
    (by simp)
  simpa using h

theorem custLoad_map_length (rc : List RawCustomer) :
    (custLoad rc).2.length = (customersClean rc).length := by
  rw [custLoad_map, idPairs_length]

theorem prodLoad_map_length (rp : List RawProduct) :
    (prodLoad rp).2.length = (productsClean rp).length := by
  rw [prodLoad_map, idPairs_length]

/-! ## Integrity filter and sales load -/

/-- Members of the integrity-filtered sales reference only surviving cleaned
natural keys. -/
theorem mem_salesS7 {rc : List RawCustomer} {rp : List RawProduct} {rs : List RawSale}
    {s : SaleStr} (h : s ∈ salesS7 rc rp rs) :
    s.customer_id ∈ (customersClean rc).map (fun c => c.customer_id) ∧
    s.product_id ∈ (productsClean rp).map (fun p => p.product_id) ∧ s ∈ salesS6 rs := by
  rw [salesS7] at h
  obtain ⟨h1, h2⟩ := List.mem_filter.mp h
  obtain ⟨h3, h4⟩ := List.mem_filter.mp h1
  exact ⟨of_decide_eq_true h4, of_decide_eq_true h2, h3⟩

/-- Both surrogate lookups succeed with positive keys for every
integrity-filtered sales row. -/
theorem salesS7_lookups (rc : List RawCustomer) (rp : List RawProduct) (rs : List RawSale) :
    ∀ s ∈ salesS7 rc rp rs,
      (∃ v, dictGet (custLoad rc).2 s.customer_id = some v ∧ 1 ≤ v) ∧
      (∃ v, dictGet (prodLoad rp).2 s.product_id = some v ∧ 1 ≤ v) := by
  intro s hs
  obtain ⟨h1, h2, _⟩ := mem_salesS7 hs
  constructor
  · rw [custLoad_map]
    exact dictGet_idPairs _ _ 0 _ h1
  · rw [prodLoad_map]
    exact dictGet_idPairs _ _ 0 _ h2

/-- When every lookup succeeds with a positive key, the sales insert loop
appends exactly one order and one item per row, in order. -/
theorem loadSalesAux_eq (cmap pmap : List (String × ℕ)) :
    ∀ (ss : List SaleStr),
      (∀ s ∈ ss, ∃ v, dictGet cmap s.customer_id = some v ∧ 1 ≤ v) →
      (∀ s ∈ ss, ∃ v, dictGet pmap s.product_id = some v ∧ 1 ≤ v) →
      ∀ (os : List LOrder) (its : List LItem),
        loadSalesAux cmap pmap os its ss
          = (os ++ mkOrders cmap os.length ss, its ++ mkItems pmap its.length os.length ss) := by
  intro ss
  induction ss with
  | nil => intro _ _ os its; simp [loadSalesAux, mkOrders, mkItems]
  | cons s ss ih =>
    intro hc hp os its
    obtain ⟨cv, hcv, hcv1⟩ := hc s (List.mem_cons_self _ _)
    obtain ⟨pv, hpv, hpv1⟩ := hp s (List.mem_cons_self _ _)
    show loadSalesAux cmap pmap os its (s :: ss)
        = (os ++ mkOrders cmap os.length (s :: ss),
           its ++ mkItems pmap its.length os.length (s :: ss))
    simp only [loadSalesAux, hcv, hpv]
    rw [if_neg (by omega)]
    rw [ih (fun s2 hs2 => hc s2 (List.mem_cons_of_mem _ hs2))
      (fun s2 hs2 => hp s2 (List.mem_cons_of_mem _ hs2))]
    simp only [mkOrders, mkItems, List.length_append, List.length_singleton]
    rw [Prod.mk.injEq]
    refine ⟨?_, ?_⟩
    · rw [show mkOrderRow cmap (os.length + 1) s
          = (⟨os.length + 1, cv, parse_flex_date (some s.transaction_date),
              to_decimal_2 ((to_decimal_2 ((parseDecimal s.unit_price).getD ⟨0, 0⟩)).mul
                (Dec.ofInt (qtyOf s))), statusOf s⟩ : LOrder) from by
        simp [mkOrderRow, hcv]]
      rw [List.append_assoc]
      rfl
    · rw [show mkItemRow pmap (its.length + 1) (os.length + 1) s
          = (⟨its.length + 1, os.length + 1, pv, qtyOf s,
              to_decimal_2 ((parseDecimal s.unit_price).getD ⟨0, 0⟩),
              to_decimal_2 ((to_decimal_2 ((parseDecimal s.unit_price).getD ⟨0, 0⟩)).mul
                (Dec.ofInt (qtyOf s)))⟩ : LItem) from by
        simp [mkItemRow, hpv]]
      rw [List.append_assoc]
      rfl

theorem mkOrders_length (cmap : List (String × ℕ)) :
    ∀ (ss : List SaleStr) (n : ℕ), (mkOrders cmap n ss).length = ss.length := by
  intro ss
  induction ss with
  | nil => intro n; rfl
  | cons s ss ih => intro n; simp [mkOrders, ih]

theorem mkItems_length (pmap : List (String × ℕ)) :
    ∀ (ss : List SaleStr) (ni no : ℕ), (mkItems pmap ni no ss).length = ss.length := by
  intro ss
  induction ss with
  | nil => intro ni no; rfl
  | cons s ss ih => intro ni no; simp [mkItems, ih]

theorem mkOrders_getElem (cmap : List (String × ℕ)) :
    ∀ (ss : List SaleStr) (n k : ℕ) (h : k < (mkOrders cmap n ss).length) (h2 : k < ss.length),
      (mkOrders cmap n ss)[k] = mkOrderRow cmap (n + k + 1) ss[k] := by
  intro ss
  induction ss with
  | nil => intro n k h h2; simp at h2
  | cons s ss ih =>
    intro n k h h2
    cases k with
    | zero => rfl
    | succ k =>
      have hh : k < (mkOrders cmap (n + 1) ss).length := by
        simpa [mkOrders] using h
      have hh2 : k < ss.length := by simpa using h2
      have := ih (n + 1) k hh hh2
      simpa [mkOrders, Nat.add_assoc, Nat.add_comm 1 k] using this

theorem mkItems_getElem (pmap : List (String × ℕ)) :
    ∀ (ss : List SaleStr) (ni no k : ℕ) (h : k < (mkItems pmap ni no ss).length)
      (h2 : k < ss.length),
      (mkItems pmap ni no ss)[k] = mkItemRow pmap (ni + k + 1) (no + k + 1) ss[k] := by
  intro ss
  induction ss with
  | nil => intro ni no k h h2; simp at h2
  | cons s ss ih =>
    intro ni no k h h2
    cases k with
    | zero => rfl
    | succ k =>
      have hh : k < (mkItems pmap (ni + 1) (no + 1) ss).length := by
        simpa [mkItems] using h
      have hh2 : k < ss.length := by simpa using h2
      have := ih (ni + 1) (no + 1) k hh hh2
      simpa [mkItems, Nat.add_assoc, Nat.add_comm 1 k] using this

/-- The sales load is exactly one order and one item per surviving row. -/
theorem salesLoad_eq (rc : List RawCustomer) (rp : List RawProduct) (rs : List RawSale) :
    salesLoad rc rp rs
      = (mkOrders (custLoad rc).2 0 (salesS7 rc rp rs),
         mkItems (prodLoad rp).2 0 0 (salesS7 rc rp rs)) := by
  rw [salesLoad, loadSalesAux_eq _ _ _ (fun s hs => (salesS7_lookups rc rp rs s hs).1)
    (fun s hs => (salesS7_lookups rc rp rs s hs).2) [] []]
  simp

/-- Field views of the built order row. -/
theorem mkOrderRow_customer (cmap : List (String × ℕ)) (oid : ℕ) (s : SaleStr) :
    (mkOrderRow cmap oid s).customer_id = (dictGet cmap s.customer_id).getD 0 := rfl

theorem mkOrderRow_order_id (cmap : List (String × ℕ)) (oid : ℕ) (s : SaleStr) :
    (mkOrderRow cmap oid s).order_id = oid := rfl

theorem mkOrderRow_total (cmap : List (String × ℕ)) (oid : ℕ) (s : SaleStr) :
    (mkOrderRow cmap oid s).total_amount
      = to_decimal_2 ((to_decimal_2 ((parseDecimal s.unit_price).getD ⟨0, 0⟩)).mul
          (Dec.ofInt (qtyOf s))) := rfl

/-- Field views of the built order-item row. -/
theorem mkItemRow_product (pmap : List (String × ℕ)) (iid oid : ℕ) (s : SaleStr) :
    (mkItemRow pmap iid oid s).product_id = (dictGet pmap s.product_id).getD 0 := rfl

theorem mkItemRow_order_id (pmap : List (String × ℕ)) (iid oid : ℕ) (s : SaleStr) :
    (mkItemRow pmap iid oid s).order_id = oid := rfl

theorem mkItemRow_quantity (pmap : List (String × ℕ)) (iid oid : ℕ) (s : SaleStr) :
    (mkItemRow pmap iid oid s).quantity = qtyOf s := rfl

theorem mkItemRow_unit_price (pmap : List (String × ℕ)) (iid oid : ℕ) (s : SaleStr) :
    (mkItemRow pmap iid oid s).unit_price
      = to_decimal_2 ((parseDecimal s.unit_price).getD ⟨0, 0⟩) := rfl

theorem mkItemRow_subtotal (pmap : List (String × ℕ)) (iid oid : ℕ) (s : SaleStr) :
    (mkItemRow pmap iid oid s).subtotal
      = to_decimal_2 ((to_decimal_2 ((parseDecimal s.unit_price).getD ⟨0, 0⟩)).mul
          (Dec.ofInt (qtyOf s))) := rfl

/-- C7: every sales row surviving cleaning and the integrity filter produces
exactly one order and exactly one order item (loaded counts coincide with the
surviving-row count); the order references the surrogate key mapped from the
row's customer natural key and the item the surrogate mapped from its product
natural key; the item's subtotal and the order's total_amount both equal
quantity × unit_price rounded to two fractional digits; and surviving rows
only ever reference natural keys present in the cleaned customer and product
sets, so rows referencing absent keys are never loaded. -/
theorem c7_one_order_one_item_per_row (rc : List RawCustomer) (rp : List RawProduct)
    (rs : List RawSale) :
    (salesLoad rc rp rs).1.length = (salesS7 rc rp rs).length ∧
    (salesLoad rc rp rs).2.length = (salesS7 rc rp rs).length ∧
    (∀ s ∈ salesS7 rc rp rs,
      s.customer_id ∈ (customersClean rc).map (fun c => c.customer_id) ∧
      s.product_id ∈ (productsClean rp).map (fun p => p.product_id)) ∧
    (∀ (k : ℕ) (hk : k < (salesS7 rc rp rs).length) (ho : k < (salesLoad rc rp rs).1.length)
        (hi : k < (salesLoad rc rp rs).2.length),
      dictGet (custLoad rc).2 (salesS7 rc rp rs)[k].customer_id
        = some (salesLoad rc rp rs).1[k].customer_id ∧
      dictGet (prodLoad rp).2 (salesS7 rc rp rs)[k].product_id
        = some (salesLoad rc rp rs).2[k].product_id ∧
      (salesLoad rc rp rs).2[k].order_id = (salesLoad rc rp rs).1[k].order_id ∧
      (salesLoad rc rp rs).2[k].quantity = qtyOf (salesS7 rc rp rs)[k] ∧
      (salesLoad rc rp rs).2[k].unit_price
        = to_decimal_2 ((parseDecimal (salesS7 rc rp rs)[k].unit_price).getD ⟨0, 0⟩) ∧
      (salesLoad rc rp rs).2[k].subtotal
        = to_decimal_2 ((salesLoad rc rp rs).2[k].unit_price.mul
            (Dec.ofInt (salesLoad rc rp rs).2[k].quantity)) ∧
      (salesLoad rc rp rs).1[k].total_amount = (salesLoad rc rp rs).2[k].subtotal) := by
  have heq := salesLoad_eq rc rp rs
  refine ⟨by rw [heq]; exact mkOrders_length _ _ 0, by rw [heq]; exact mkItems_length _ _ 0 0,
    ?_, ?_⟩
  · intro s hs
    obtain ⟨h1, h2, _⟩ := mem_salesS7 hs
    exact ⟨h1, h2⟩
  · intro k hk ho hi
    have hko : k < (mkOrders (custLoad rc).2 0 (salesS7 rc rp rs)).length := by
      rw [mkOrders_length]; exact hk
    have hki : k < (mkItems (prodLoad rp).2 0 0 (salesS7 rc rp rs)).length := by
      rw [mkItems_length]; exact hk
    have hgo : (salesLoad rc rp rs).1[k] = mkOrderRow (custLoad rc).2 (0 + k + 1)
        (salesS7 rc rp rs)[k] := by
      rw [List.getElem_of_eq (congrArg Prod.fst heq) ho]
      exact mkOrders_getElem _ _ 0 k hko hk
    have hgi : (salesLoad rc rp rs).2[k] = mkItemRow (prodLoad rp).2 (0 + k + 1) (0 + k + 1)
        (salesS7 rc rp rs)[k] := by
      rw [List.getElem_of_eq (congrArg Prod.snd heq) hi]
      exact mkItems_getElem _ _ 0 0 k hki hk
    have hmem : (salesS7 rc rp rs)[k] ∈ salesS7 rc rp rs := List.getElem_mem hk
    obtain ⟨⟨cv, hcv, _⟩, ⟨pv, hpv, _⟩⟩ := salesS7_lookups rc rp rs _ hmem
    refine ⟨?_, ?_, ?_, ?_, ?_, ?_, ?_⟩
    · rw [hgo, mkOrderRow_customer, hcv]
      rfl
    · rw [hgi, mkItemRow_product, hpv]
      rfl
    · rw [hgo, hgi, mkItemRow_order_id, mkOrderRow_order_id]
    · rw [hgi, mkItemRow_quantity]
    · rw [hgi, mkItemRow_unit_price]
    · rw [hgi, mkItemRow_subtotal, mkItemRow_unit_price, mkItemRow_quantity]
    · rw [hgo, hgi, mkOrderRow_total, mkItemRow_subtotal]

/-- C7 witness: one customer, one product and one sale of quantity 2 at unit
price 10.5 load as exactly one order and one item with subtotal and total
21.00 and surrogate keys 1. -/
theorem c7_witness :
    (salesLoad rcW rpW rsW).1.length = (salesS7 rcW rpW rsW).length ∧
    (salesS7 rcW rpW rsW).length = 1 ∧
    (salesLoad rcW rpW rsW).1 = [⟨1, 1, some ⟨2024, 1, 15⟩, ⟨2100, 2⟩, "Paid"⟩] ∧
    (salesLoad rcW rpW rsW).2 = [⟨1, 1, 1, 2, ⟨1050, 2⟩, ⟨2100, 2⟩⟩] ∧
    dictGet (custLoad rcW).2 "C1" = some 1 ∧ dictGet (prodLoad rpW).2 "P1" = some 1 :=
  ⟨(c7_one_order_one_item_per_row rcW rpW rsW).1, by decide, by decide, by decide,
   by decide, by decide⟩

/-! ## Counter reconciliation -/

theorem length_filter_add_not {α : Type} (l : List α) (p : α → Bool) :
    (l.filter p).length + l.countP (fun a => !(p a)) = l.length := by
  induction l with
  | nil => rfl
  | cons a t ih =>
    cases h : p a <;> simp [List.filter_cons, List.countP_cons, h] <;> omega

theorem length_filter_not_add {α : Type} (l : List α) (p : α → Bool) :
    (l.filter (fun a => !(p a))).length + l.countP p = l.length := by
  induction l with
  | nil => rfl
  | cons a t ih =>
    cases h : p a <;> simp [List.filter_cons, List.countP_cons, h] <;> omega

theorem countP_isNone_eq {α β : Type} (l : List α) (f : α → Option β) :
    l.countP (fun a => (f a).isNone) = l.countP (fun a => !((f a).isSome)) :=
  List.countP_congr (fun a _ => by cases f a <;> rfl)

/-- C2 (amended): the emitted counters reconcile for customers
(raw = loaded + duplicates removed; customers are never dropped) and — once
the drop reasons the report does not count are added back — for products and
sales as well: products additionally lose the rows dropped for lack of
category peer prices, and sales additionally lose the rows dropped for
non-positive/unparsable quantity, for unparsable unit price, and by the
integrity filter; none of those three sales drop reasons nor the product
peer-price drop is counted anywhere in the report.  Loaded order and
order-item counts always coincide. -/
theorem c2_report_reconciliation (rc : List RawCustomer) (rp : List RawProduct)
    (rs : List RawSale) :
    (buildReport rc rp rs).customers_raw
        = (buildReport rc rp rs).customers_loaded
          + (buildReport rc rp rs).customers_dupes_removed ∧
    (buildReport rc rp rs).products_raw
        = (buildReport rc rp rs).products_loaded + (buildReport rc rp rs).products_dupes_removed
          + ((productsStage rp).map
              (fun r => { r with price_num := impute_price (productsStage rp) r })).countP
              (fun r => r.price_num.isNone) ∧
    (buildReport rc rp rs).sales_raw
        = (buildReport rc rp rs).orders_loaded + (buildReport rc rp rs).sales_dupes_removed
          + (buildReport rc rp rs).sales_missing_customer_dropped
          + (buildReport rc rp rs).sales_missing_product_dropped
          + (buildReport rc rp rs).sales_invalid_date_dropped
          + (salesS3 rs).countP (fun s => !(decide (0 < qtyOf s)))
          + (salesS4 rs).countP (fun s => (parseDecimal s.unit_price).isNone)
          + (salesS6 rs).countP (fun s =>
              !(decide (s.customer_id ∈ (customersClean rc).map (fun c => c.customer_id))))
          + ((salesS6 rs).filter (fun s =>
              decide (s.customer_id ∈ (customersClean rc).map (fun c => c.customer_id)))).countP
              (fun s =>
                !(decide (s.product_id ∈ (productsClean rp).map (fun p => p.product_id)))) ∧
    (buildReport rc rp rs).order_items_loaded = (buildReport rc rp rs).orders_loaded := by
  simp only [buildReport]
  refine ⟨?_, ?_, ?_, ?_⟩
  · have h1 : (custLoad rc).2.length = (customersClean rc).length := custLoad_map_length rc
    have h2 : (customersClean rc).length = (customersDedup rc).length := by
      rw [customersClean, List.length_map]
    have h3 : (customersDedup rc).length ≤ (customersStr rc).length :=
      dedupByAux_length_le _ _ _
    omega
  · have h1 : (prodLoad rp).2.length = (productsClean rp).length := prodLoad_map_length rp
    have h2 : (productsClean rp).length = (productsImputed rp).length := by
      rw [productsClean, List.length_map]
    have h3 : (productsImputed rp).length
        + ((productsStage rp).map
            (fun r => { r with price_num := impute_price (productsStage rp) r })).countP
            (fun r => !(r.price_num.isSome))
        = ((productsStage rp).map
            (fun r => { r with price_num := impute_price (productsStage rp) r })).length :=
      length_filter_add_not _ _
    have h3b : ((productsStage rp).map
          (fun r => { r with price_num := impute_price (productsStage rp) r })).countP
          (fun r => r.price_num.isNone)
        = ((productsStage rp).map
            (fun r => { r with price_num := impute_price (productsStage rp) r })).countP
            (fun r => !(r.price_num.isSome)) :=
      countP_isNone_eq _ (fun r : ProductStage => r.price_num)
    have h4 : ((productsStage rp).map
          (fun r => { r with price_num := impute_price (productsStage rp) r })).length
        = (productsStage rp).length := List.length_map _ _
    have h5 : (productsStage rp).length = (productsDedup rp).length := by
      rw [productsStage, List.length_map]
    have h6 : (productsDedup rp).length ≤ (productsStr rp).length :=
      dedupByAux_length_le _ _ _
    omega
  · have hd : (salesS1 rs).length ≤ (salesStr rs).length := dedupByAux_length_le _ _ _
    have e2 : (salesS2 rs).length + (salesS1 rs).countP (fun s => s.customer_id == "")
        = (salesS1 rs).length := length_filter_not_add _ _
    have e3 : (salesS3 rs).length + (salesS2 rs).countP (fun s => s.product_id == "")
        = (salesS2 rs).length := length_filter_not_add _ _
    have e4 : (salesS4 rs).length + (salesS3 rs).countP (fun s => !(decide (0 < qtyOf s)))
        = (salesS3 rs).length := length_filter_add_not _ _
    have e5 : (salesS5 rs).length
        + (salesS4 rs).countP (fun s => !((parseDecimal s.unit_price).isSome))
        = (salesS4 rs).length := length_filter_add_not _ _
    have e5b : (salesS4 rs).countP (fun s => (parseDecimal s.unit_price).isNone)
        = (salesS4 rs).countP (fun s => !((parseDecimal s.unit_price).isSome)) :=
      countP_isNone_eq _ (fun s : SaleStr => parseDecimal s.unit_price)
    have e6 : (salesS6 rs).length
        + (salesS5 rs).countP (fun s => !((parse_flex_date (some s.transaction_date)).isSome))
        = (salesS5 rs).length := length_filter_add_not _ _
    have e6b : (salesS5 rs).countP (fun s => (parse_flex_date (some s.transaction_date)).isNone)
        = (salesS5 rs).countP
            (fun s => !((parse_flex_date (some s.transaction_date)).isSome)) :=
      countP_isNone_eq _ (fun s : SaleStr => parse_flex_date (some s.transaction_date))
    have e7a : ((salesS6 rs).filter (fun s =>
          decide (s.customer_id ∈ (customersClean rc).map (fun c => c.customer_id)))).length
        + (salesS6 rs).countP (fun s =>
            !(decide (s.customer_id ∈ (customersClean rc).map (fun c => c.customer_id))))
        = (salesS6 rs).length := length_filter_add_not _ _
    have e7b : (salesS7 rc rp rs).length
        + ((salesS6 rs).filter (fun s =>
            decide (s.customer_id ∈ (customersClean rc).map (fun c => c.customer_id)))).countP
            (fun s =>
              !(decide (s.product_id ∈ (productsClean rp).map (fun p => p.product_id))))
        = ((salesS6 rs).filter (fun s =>
            decide (s.customer_id ∈ (customersClean rc).map
              (fun c => c.customer_id)))).length := length_filter_add_not _ _
    have e8 : (salesLoad rc rp rs).1.length = (salesS7 rc rp rs).length := by
      rw [salesLoad_eq]
      exact mkOrders_length _ _ 0
    omega
  · rw [salesLoad_eq]
    show (mkItems (prodLoad rp).2 0 0 (salesS7 rc rp rs)).length
      = (mkOrders (custLoad rc).2 0 (salesS7 rc rp rs)).length
    rw [mkItems_length, mkOrders_length]

/-- C2 witness: the reconciliation identity instantiated on a run whose only
sales row is dropped for quantity "0"; the uncounted quantity-drop term is
what balances it. -/
theorem c2_witness :
    (salesS3 rsQty0).countP (fun s => !(decide (0 < qtyOf s))) = 1 ∧
    (buildReport [] [] rsQty0).sales_raw
        = (buildReport [] [] rsQty0).orders_loaded
          + (buildReport [] [] rsQty0).sales_dupes_removed
          + (buildReport [] [] rsQty0).sales_missing_customer_dropped
          + (buildReport [] [] rsQty0).sales_missing_product_dropped
          + (buildReport [] [] rsQty0).sales_invalid_date_dropped
          + (salesS3 rsQty0).countP (fun s => !(decide (0 < qtyOf s)))
          + (salesS4 rsQty0).countP (fun s => (parseDecimal s.unit_price).isNone)
          + (salesS6 rsQty0).countP (fun s =>
              !(decide (s.customer_id ∈ (customersClean []).map (fun c => c.customer_id))))
          + ((salesS6 rsQty0).filter (fun s =>
              decide (s.customer_id ∈ (customersClean []).map (fun c => c.customer_id)))).countP
              (fun s =>
                !(decide (s.product_id ∈ (productsClean []).map (fun p => p.product_id)))) :=
  ⟨by decide, (c2_report_reconciliation [] [] rsQty0).2.2.1⟩

/-- C2 counterexample: with a single sales row whose quantity text is "0",
the raw count is 1 but the loaded count plus duplicates plus every
drop-reason counter that the report actually carries sums to 0 — the
quantity drop is counted nowhere, so the report's counters do not
reconcile. -/
theorem c2_counterexample :
    (buildReport [] [] rsQty0).sales_raw = 1 ∧
    (buildReport [] [] rsQty0).orders_loaded + (buildReport [] [] rsQty0).sales_dupes_removed
      + (buildReport [] [] rsQty0).sales_missing_customer_dropped
      + (buildReport [] [] rsQty0).sales_missing_product_dropped
      + (buildReport [] [] rsQty0).sales_invalid_date_dropped = 0 ∧
    ¬((buildReport [] [] rsQty0).sales_raw
        = (buildReport [] [] rsQty0).orders_loaded
          + (buildReport [] [] rsQty0).sales_dupes_removed
          + (buildReport [] [] rsQty0).sales_missing_customer_dropped
          + (buildReport [] [] rsQty0).sales_missing_product_dropped
          + (buildReport [] [] rsQty0).sales_invalid_date_dropped) := by
  refine ⟨by decide, by decide, by decide⟩
